import Mathlib

/-!
Shallow embedding of the Zerg creep-spread simulation core (src: core.js).

Modelling conventions:
* JS `Uint8Array` / `Float32Array` cells become `List Nat` / `List ℚ`; reads
  use `tget` (out-of-bounds reads give `none`, mirroring JS `undefined`) and
  writes use `tset` (out-of-bounds writes are dropped, as JS typed arrays do).
* `Math.random()` becomes an oracle `rng : Nat → ℚ` together with a draw
  counter threaded through the code in call order; each `Math.random()` site
  reads `rng k` and bumps `k`.
* The JS `Set` `activeEdges` becomes an insertion-ordered duplicate-free
  `List Int` (`setAdd` appends when absent). A `for...of` loop over a JS Set
  visits elements appended during the iteration, which the index-driven
  `scanLoop` below reproduces.
* All numeric literals (0.002, 0.98, 0.55, ...) are translated to exact
  rationals; `Math.floor` becomes `Int.floor`.
-/

namespace Zerg

/-- JS typed-array read `a[i]`: `none` models `undefined` (negative or
out-of-range index). -/
def tget {α : Type} (a : List α) (i : Int) : Option α :=
  if 0 ≤ i then a[i.toNat]? else none

/-- JS typed-array write `a[i] = v`: out-of-range writes are silently
ignored. -/
def tset {α : Type} (a : List α) (i : Int) (v : α) : List α :=
  if 0 ≤ i then a.set i.toNat v else a

/-- JS truthiness of `a[i]` for a numeric array: both `undefined` and `0` are
falsy, everything else truthy. -/
def truthyAt (a : List Nat) (i : Int) : Bool :=
  (tget a i).getD 0 != 0

/-- JS test `a[i] === 0` (false for `undefined`). -/
def isZeroAt (a : List Nat) (i : Int) : Bool :=
  tget a i == some 0

/-- JS test `a[i] <= 2` (false for `undefined`, since NaN comparisons are
false). -/
def typeLE2 (a : List Nat) (i : Int) : Bool :=
  match tget a i with
  | some v => v ≤ 2
  | none => false

/-- JS test `a[i] > 2` (false for `undefined`). -/
def typeGT2 (a : List Nat) (i : Int) : Bool :=
  match tget a i with
  | some v => 2 < v
  | none => false

/-- Rational read with default 0, for `ℚ` arrays read at a checked-in-bounds
index. -/
def qAt (a : List ℚ) (i : Int) : ℚ :=
  match tget a i with
  | some v => v
  | none => 0

/-- JS `Set.add`: append if absent, keeping insertion order. -/
def setAdd (l : List Int) (i : Int) : List Int :=
  if i ∈ l then l else l ++ [i]

/-- Inclusive integer range `[lo, lo+1, ..., hi]` (JS `for (d = lo; d <= hi; d++)`). -/
def intsFromTo (lo hi : Int) : List Int :=
  (List.range (hi + 1 - lo).toNat).map (fun n => lo + (n : Int))

/-- Half-open integer range `[lo, ..., hi)` (JS `for (s = lo; s < hi; s++)`). -/
def intsFromToEx (lo hi : Int) : List Int :=
  (List.range (hi - lo).toNat).map (fun n => lo + (n : Int))

/-- Math.floor on a rational. -/
def jsFloor (q : ℚ) : Int := Int.floor q

/-- Number of occupied cells (occupancy value 1) in a creep grid. -/
def countOnes (g : List Nat) : Nat := g.countP (fun v => v == 1)

/-- startCorner record (line 42 / 243-250 of core.js). -/
structure Corner where
  x : Int
  y : Int
  dirX : Int
  dirY : Int
deriving DecidableEq, Repr

/-- A mineral or vespene deposit (lines 290, 302). -/
structure Deposit where
  x : Int
  y : Int
  radius : ℚ
  depleted : Bool
deriving DecidableEq, Repr

/-- A placed structure; btype 0 = hatchery, 1 = mineralpatch, 2 = extractor. -/
structure Building where
  x : Int
  y : Int
  btype : Nat
  pulse : ℚ
deriving DecidableEq, Repr

/-- The simulation state: the module-level mutable globals of core.js that
the simulation core reads and writes (ripples and the pixel buffers are
presentation-only and are not part of the core state). -/
structure World where
  cols : Nat
  rows : Nat
  creepGrid : List Nat
  creepAge : List ℚ
  terrainHeight : List ℚ
  terrainType : List Nat
  minerals : List Deposit
  vespene : List Deposit
  buildings : List Building
  startCorner : Corner
  activeEdges : List Int
  noiseTexture1 : List ℚ
  totalVisibleCells : Nat
  isSaturated : Bool
  creepCount : Nat
  resourceBoost : ℚ
  mineralsGathered : Int
  vespeneGathered : Int
deriving DecidableEq, Repr

def HATCHERY_MINERAL_COST : Int := 2
def HATCHERY_VESPENE_COST : Int := 1

/-- 0.55 (line 62). -/
def HATCHERY_SPAWN_CHANCE : ℚ := 11 / 20

/-- Terrain spread modifiers `[1.0, 0.9, 0.75, 0.2, 0.15]` (line 68). -/
def terrainSpreadMods : List ℚ := [1, 9/10, 3/4, 1/5, 3/20]

/-- Which resource kind a discovery reported. -/
inductive ResKind where
  | mineral
  | vespene
deriving DecidableEq, Repr

/-- Return value of `checkResource`: `{ type: ..., boost: ... }`. -/
structure Discovery where
  kind : ResKind
  boost : ℚ
deriving DecidableEq, Repr

/-- Candidate scan of `maybeSpawnHatcheryNear` (lines 321-335): square
neighborhood of radius 4, outer `dy` loop, inner `dx` loop, keeping in-bounds
cells that are non-cliff/non-water (`terrainType <= 2`) and creep-occupied. -/
def hatcheryCandidates (w : World) (tileX tileY : Int) : List (Int × Int) :=
  (intsFromTo (-4) 4).flatMap (fun dy =>
    (intsFromTo (-4) 4).filterMap (fun dx =>
      let x := tileX + dx
      let y := tileY + dy
      if x < 0 ∨ (w.cols : Int) ≤ x ∨ y < 0 ∨ (w.rows : Int) ≤ y then none
      else
        let idx := y * (w.cols : Int) + x
        if typeLE2 w.terrainType idx ∧ truthyAt w.creepGrid idx then some (x, y)
        else none))

/-- Body of the 3x3 seeding loop of `maybeSpawnHatcheryNear` (lines 342-359),
executed for one offset `(dy, dx)` around the chosen cell. -/
def hatcherySeedCell (chosen : Int × Int) (w : World) (d : Int × Int) : World :=
  let x := chosen.1 + d.2
  let y := chosen.2 + d.1
  if x < 0 ∨ (w.cols : Int) ≤ x ∨ y < 0 ∨ (w.rows : Int) ≤ y then w
  else
    let idx := y * (w.cols : Int) + x
    if typeLE2 w.terrainType idx then
      if truthyAt w.creepGrid idx = false then
        { w with creepGrid := tset w.creepGrid idx 1,
                 creepAge := tset w.creepAge idx 20,
                 activeEdges := setAdd w.activeEdges idx,
                 creepCount := w.creepCount + 1 }
      else
        { w with creepAge := tset w.creepAge idx (max (qAt w.creepAge idx) 20) }
    else w

/-- `maybeSpawnHatcheryNear(tileX, tileY)` (lines 317-363). Returns the new
state and the advanced draw counter. -/
def maybeSpawnHatcheryNear (rng : Nat → ℚ) (w : World) (k : Nat)
    (tileX tileY : Int) : World × Nat :=
  if w.mineralsGathered < HATCHERY_MINERAL_COST ∨
      w.vespeneGathered < HATCHERY_VESPENE_COST then (w, k)
  else if HATCHERY_SPAWN_CHANCE < rng k then (w, k + 1)
  else
    let candidates := hatcheryCandidates w tileX tileY
    if candidates = [] then (w, k + 1)
    else
      let chosen := candidates.getD (jsFloor (rng (k + 1) * (candidates.length : ℚ))).toNat
        (0, 0)
      let w1 := { w with buildings := w.buildings ++ [⟨chosen.1, chosen.2, 0, 0⟩] }
      let w2 := ((intsFromTo (-1) 1).flatMap (fun dy =>
        (intsFromTo (-1) 1).map (fun dx => (dy, dx)))).foldl (hatcherySeedCell chosen) w1
      ({ w2 with mineralsGathered := w2.mineralsGathered - HATCHERY_MINERAL_COST,
                 vespeneGathered := w2.vespeneGathered - HATCHERY_VESPENE_COST },
       k + 2)

/-- Index of the first deposit in the list that is undepleted and whose center
is within squared distance `rsq` of `(x, y)` — the deposit the `for ... of`
loops of `checkResource` (lines 369-396) would act on. -/
def firstHit (ds : List Deposit) (x y rsq : Int) : Option Nat :=
  match ds with
  | [] => none
  | d :: rest =>
    if d.depleted = false ∧ (x - d.x) * (x - d.x) + (y - d.y) * (y - d.y) < rsq then
      some 0
    else (firstHit rest x y rsq).map (· + 1)

/-- Fallback deposit for `getD` at an index `firstHit` guarantees is valid. -/
def noDeposit : Deposit := ⟨0, 0, 0, false⟩

/-- `checkResource(idx, x, y)` (lines 365-398; the `idx` parameter is unused in
the source). Minerals are scanned first, then vespene; the first undepleted
in-range deposit is depleted, bumps `resourceBoost` and the gathered counter,
pushes a marker building, and triggers `maybeSpawnHatcheryNear`. -/
def checkResource (rng : Nat → ℚ) (w : World) (k : Nat) (x y : Int) :
    World × Nat × Option Discovery :=
  match firstHit w.minerals x y 25 with
  | some j =>
    let d := w.minerals.getD j noDeposit
    let w1 := { w with minerals := w.minerals.set j { d with depleted := true },
                       resourceBoost := min 3 (w.resourceBoost + 1/2),
                       mineralsGathered := w.mineralsGathered + 1,
                       buildings := w.buildings ++ [⟨d.x, d.y, 1, 0⟩] }
    let p := maybeSpawnHatcheryNear rng w1 k d.x d.y
    (p.1, p.2, some ⟨ResKind.mineral, 2⟩)
  | none =>
    match firstHit w.vespene x y 36 with
    | some j =>
      let d := w.vespene.getD j noDeposit
      let w1 := { w with vespene := w.vespene.set j { d with depleted := true },
                         resourceBoost := min 3 (w.resourceBoost + 1),
                         vespeneGathered := w.vespeneGathered + 1,
                         buildings := w.buildings ++ [⟨d.x, d.y, 2, 0⟩] }
      let p := maybeSpawnHatcheryNear rng w1 k d.x d.y
      (p.1, p.2, some ⟨ResKind.vespene, 3⟩)
    | none => (w, k, none)

/-- The 8-neighbor offsets `(dx, dy)` in the order listed at lines 439-443. -/
def neighborOffsets : List (Int × Int) :=
  [(-1, -1), (0, -1), (1, -1), (-1, 0), (1, 0), (-1, 1), (0, 1), (1, 1)]

/-- The growth-probability computation of lines 456-472, reading the terrain
type, height and detail-noise modifiers at the neighbor index `nidx`, the
direction modifier from the neighbor offset against the start corner, and the
resource modifier from the discovery result (`res ? res.boost : 1`).
`currentBoost` is the `resourceBoost` snapshot taken at line 431. -/
def spreadChanceOf (w : World) (currentBoost : ℚ) (nidx : Int) (dx dy : Int)
    (res : Option Discovery) : ℚ :=
  let typeMod :=
    match tget w.terrainType nidx with
    | some t => terrainSpreadMods.getD t 0
    | none => 0
  let height := qAt w.terrainHeight nidx
  let heightMod := 1 - height * (1/2)
  let awayX := dx == w.startCorner.dirX
  let awayY := dy == w.startCorner.dirY
  let dirMod : ℚ := if awayX && awayY then 4 else if awayX || awayY then 5/2 else 1
  let resMod : ℚ := match res with | some r => r.boost | none => 1
  let noiseVal := qAt w.noiseTexture1 nidx
  let noiseMod : ℚ := if 3/4 < noiseVal then 3/2 else 1
  (2/1000) * currentBoost * heightMod * typeMod * dirMod * resMod * noiseMod

/-- Per-step loop state: the world, the draw counter, the side buffers
`newEdges` and `toRemove` of `spreadCreep` (lines 429-430), and a ghost trace
`scanned` recording which frontier entries the `for...of` scan has visited
(it has no effect on the simulation state). -/
structure StepState where
  w : World
  k : Nat
  newEdges : List Int
  toRemove : List Int
  scanned : List Int
deriving DecidableEq, Repr

/-- Processing of one neighbor offset inside the frontier scan
(lines 445-481). Returns the updated loop state and whether this neighbor was
seen empty (`creepGrid[nidx] === 0`), i.e. this offset's contribution to
`hasEmptyNeighbor`. -/
def processNeighbor (rng : Nat → ℚ) (cb : ℚ) (x y : Int) (d : Int × Int)
    (s : StepState) : StepState × Bool :=
  let nx := x + d.1
  let ny := y + d.2
  if nx < 0 ∨ (s.w.cols : Int) ≤ nx ∨ ny < 0 ∨ (s.w.rows : Int) ≤ ny then (s, false)
  else
    let nidx := ny * (s.w.cols : Int) + nx
    if isZeroAt s.w.creepGrid nidx then
      let t := checkResource rng s.w s.k nx ny
      let chance := spreadChanceOf t.1 cb nidx d.1 d.2 t.2.2
      if rng t.2.1 < chance then
        ({ s with
            w := { t.1 with creepGrid := tset t.1.creepGrid nidx 1,
                            creepAge := tset t.1.creepAge nidx 1,
                            creepCount := t.1.creepCount + 1 },
            k := t.2.1 + 1,
            newEdges := setAdd s.newEdges nidx }, true)
      else ({ s with w := t.1, k := t.2.1 + 1 }, true)
    else (s, false)

/-- One step of the neighbor fold: run `processNeighbor` and accumulate its
empty-neighbor flag into `hasEmptyNeighbor`. -/
def scanNbr (rng : Nat → ℚ) (cb : ℚ) (x y : Int) (p : StepState × Bool)
    (d : Int × Int) : StepState × Bool :=
  let q := processNeighbor rng cb x y d p.1
  (q.1, p.2 || q.2)

/-- Processing of one frontier cell (the body of the `for (const idx of
activeEdges)` loop, lines 433-488): scan the 8 neighbors, age the cell, queue
it for removal when no empty neighbor was seen. When `cols = 0` the JS
decode `idx % cols` is `NaN`, every neighbor bounds test and the
`creepGrid[NaN] === 0` test are then false, so the neighbor scan has no
effect and `hasEmptyNeighbor` stays false; the age write still happens at
`idx` itself. -/
def processEdgeCell (rng : Nat → ℚ) (cb : ℚ) (s : StepState) (idx : Int) :
    StepState :=
  if s.w.cols = 0 then
    { s with
        w := { s.w with
                creepAge := tset s.w.creepAge idx (min 100 (qAt s.w.creepAge idx + 1/5)) },
        toRemove := s.toRemove ++ [idx],
        scanned := s.scanned ++ [idx] }
  else
    let x := Int.tmod idx (s.w.cols : Int)
    let y := Int.fdiv idx (s.w.cols : Int)
    let t := neighborOffsets.foldl (scanNbr rng cb x y) (s, false)
    let s1 := { t.1 with
        w := { t.1.w with
                creepAge := tset t.1.w.creepAge idx
                  (min 100 (qAt t.1.w.creepAge idx + 1/5)) },
        scanned := t.1.scanned ++ [idx] }
    if t.2 then s1 else { s1 with toRemove := s1.toRemove ++ [idx] }

/-- The fuel bound used to drive the frontier scan: entries are appended to
`activeEdges` during the scan only when a previously empty in-range cell is
occupied, so the live list never grows past its initial length plus the cell
count, and this fuel always suffices to reach the end of the list. -/
def stepFuel (w : World) : Nat := w.activeEdges.length + w.cols * w.rows + 1

/-- Index-driven iteration of the frontier scan over the live `activeEdges`
list; entries appended during the loop are visited, as a JS `for...of` over a
Set does. -/
def scanLoop (rng : Nat → ℚ) (cb : ℚ) : Nat → Nat → StepState → StepState
  | 0, _, s => s
  | fuel + 1, i, s =>
    if h : i < s.w.activeEdges.length then
      scanLoop rng cb fuel (i + 1) (processEdgeCell rng cb s (s.w.activeEdges.get ⟨i, h⟩))
    else s

/-- The whole frontier scan of one step, started from the given world with
draw counter 0 and empty side buffers. -/
def stepScan (rng : Nat → ℚ) (w : World) : StepState :=
  scanLoop rng w.resourceBoost (stepFuel w) 0 ⟨w, 0, [], [], []⟩

/-- `spreadCreep()` (lines 426-500): no-op when saturated; otherwise scan the
frontier, then apply the removal list and the new-edge set to `activeEdges`,
then test saturation (`creepCount >= totalVisibleCells * 0.98`). -/
def spreadCreep (rng : Nat → ℚ) (w : World) : World :=
  if w.isSaturated then w
  else
    let s1 := stepScan rng w
    let edges1 := s1.w.activeEdges.filter (fun e => !(s1.toRemove.contains e))
    let edges2 := s1.newEdges.foldl setAdd edges1
    let w1 := { s1.w with activeEdges := edges2 }
    if (w1.totalVisibleCells : ℚ) * (98/100) ≤ (w1.creepCount : ℚ) then
      { w1 with isSaturated := true }
    else w1

/-- The ghost visit trace of one step: which frontier entries the scan of
`spreadCreep` visits (empty when the step is a saturated no-op). -/
def spreadCreepScanned (rng : Nat → ℚ) (w : World) : List Int :=
  if w.isSaturated then [] else (stepScan rng w).scanned

/-! ### Terrain classification (initGrid, lines 203-235)

The height/biome noise, smoothing and water carving (lines 108-201) only
produce the `terrainHeight` array and the `expandedWater` mask these two
passes consume, so the passes are embedded as standalone functions of those
inputs. -/

/-- Type assignment (lines 203-215): each cell is written exactly once from
the water mask and the height, so the in-place loop is a map over the cell
indices. Thresholds: water mask, else `h < 0.32` low, `h < 0.6` mid, else
high plateau. -/
def classifyTypes (size : Nat) (expandedWater : List Nat) (th : List ℚ) :
    List Nat :=
  (List.range size).map (fun i =>
    if expandedWater.getD i 0 ≠ 0 then 4
    else if th.getD i 0 < 8/25 then 0
    else if th.getD i 0 < 3/5 then 1
    else 2)

/-- The running maximum of lines 224-229: absolute height difference to the
4-directional in-bounds neighbors of cell `(x, y)` (`x < cols - 1` is written
`x + 1 < cols`, identical over the integers). -/
def maxDiff4 (cols rows : Nat) (th : List ℚ) (x y : Nat) : ℚ :=
  let idx := y * cols + x
  let h := th.getD idx 0
  let m1 : ℚ := if 0 < x then max 0 |h - th.getD (idx - 1) 0| else 0
  let m2 := if x + 1 < cols then max m1 |h - th.getD (idx + 1) 0| else m1
  let m3 := if 0 < y then max m2 |h - th.getD (idx - cols) 0| else m2
  if y + 1 < rows then max m3 |h - th.getD (idx + cols) 0| else m3

/-- The body of the cliff-detection loop at one cell index: skip water
(`type === 4`), overwrite with 3 when the neighbor height difference exceeds
0.08. -/
def cliffStep (cols rows : Nat) (th : List ℚ) (acc : List Nat) (i : Nat) :
    List Nat :=
  if acc.getD i 0 = 4 then acc
  else if maxDiff4 cols rows th (i % cols) (i / cols) > 2/25 then acc.set i 3
  else acc

/-- Cliff detection (lines 217-235): the double `y`/`x` loop linearized over
cell indices in the same order. Each write depends only on the immutable
heights and the cell's own not-yet-rewritten value. -/
def detectCliffs (cols rows : Nat) (th : List ℚ) (tt : List Nat) : List Nat :=
  (List.range (cols * rows)).foldl (cliffStep cols rows th) tt

/-! ### World construction (initGrid, lines 86-107 and 243-315)

The noise-texture and terrain generation (lines 108-241) is factored out:
`initGridWithTerrain` receives the finished `terrainHeight`, `terrainType`
and `noiseTexture1` arrays as inputs and performs the state reset, start
corner and seed selection, creep seeding and deposit placement. The ripple
push (lines 306-314) is presentation-only and omitted. The `Math.random()`
draws of the omitted water-body generation are not in the oracle stream,
which is harmless because every theorem below quantifies over the oracle. -/

/-- Start corner selection (lines 243-250). For a draw in `[0, 1)` the switch
always matches; otherwise the JS switch matches nothing and the module-level
initial corner `{0, 0, 1, 1}` (line 42) is kept. -/
def cornerOf (cols rows : Nat) (r : ℚ) : Corner :=
  match (jsFloor (r * 4)).toNat with
  | 0 => ⟨0, 0, 1, 1⟩
  | 1 => ⟨(cols : Int) - 1, 0, -1, 1⟩
  | 2 => ⟨0, (rows : Int) - 1, 1, -1⟩
  | 3 => ⟨(cols : Int) - 1, (rows : Int) - 1, -1, -1⟩
  | _ => ⟨0, 0, 1, 1⟩

/-- Seed search (lines 252-268): scan the margin window nearest the start
corner, outer row loop, inner column loop, for the first cell with
`terrainType <= 2`; fall back to the corner itself. `Math.floor(cols * 0.1)`
is modelled as the exact rational floor. -/
def findSeed (cols rows : Nat) (tt : List Nat) (c : Corner) : Int × Int :=
  let margin : Int := jsFloor ((cols : ℚ) / 10)
  let xr := if c.dirX = 1 then ((0 : Int), margin) else ((cols : Int) - margin, (cols : Int))
  let yr := if c.dirY = 1 then ((0 : Int), margin) else ((rows : Int) - margin, (rows : Int))
  let hits := (intsFromToEx yr.1 yr.2).flatMap (fun sy =>
    (intsFromToEx xr.1 xr.2).filterMap (fun sx =>
      if typeLE2 tt (sy * (cols : Int) + sx) then some (sx, sy) else none))
  match hits with
  | [] => (c.x, c.y)
  | h :: _ => h

/-- One rejection-sampling loop of deposit placement (lines 284-288 and
296-300): draw a cell, count the attempt, repeat while the cell is on
cliff/water terrain or already creep-covered and fewer than 100 attempts were
made. Returns the last drawn cell, the attempt count and the advanced draw
counter. The fuel starts at 100, so the `attempts < 100` bound is reached
before the fuel runs out. -/
def placeLoop (rng : Nat → ℚ) (cols rows : Nat) (tt creep : List Nat) :
    Nat → Nat → Nat → Int × Int × Nat × Nat
  | 0, k, attempts => (0, 0, attempts, k)
  | fuel + 1, k, attempts =>
    let cx := jsFloor (rng k * (cols : ℚ))
    let cy := jsFloor (rng (k + 1) * (rows : ℚ))
    let idx := cy * (cols : Int) + cx
    if (typeGT2 tt idx ∨ truthyAt creep idx) ∧ attempts + 1 < 100 then
      placeLoop rng cols rows tt creep fuel (k + 2) (attempts + 1)
    else (cx, cy, attempts + 1, k + 2)

/-- Deposit placement (lines 282-292 and 294-304): for each slot run the
rejection loop; when it stopped before the 100th attempt, push a deposit with
a randomized radius `rlo + rand * rmul` and `depleted = false`. -/
def placeDeposits (rng : Nat → ℚ) (cols rows : Nat) (tt creep : List Nat)
    (rlo rmul : ℚ) : Nat → Nat → List Deposit × Nat
  | 0, k => ([], k)
  | count + 1, k =>
    let t := placeLoop rng cols rows tt creep 100 k 0
    if t.2.2.1 < 100 then
      let d : Deposit := ⟨t.1, t.2.1, rlo + rng t.2.2.2 * rmul, false⟩
      let rest := placeDeposits rng cols rows tt creep rlo rmul count (t.2.2.2 + 1)
      (d :: rest.1, rest.2)
    else
      placeDeposits rng cols rows tt creep rlo rmul count t.2.2.2

/-- `max(15, Math.floor(cols * rows * 0.0006))` (line 279). -/
def numMinerals (cols rows : Nat) : Nat :=
  max 15 (jsFloor ((cols * rows : ℚ) * (6/10000))).toNat

/-- `max(8, Math.floor(cols * rows * 0.0003))` (line 280). -/
def numVespene (cols rows : Nat) : Nat :=
  max 8 (jsFloor ((cols * rows : ℚ) * (3/10000))).toNat

/-- `initGrid()` with the terrain arrays supplied (lines 86-107 and 243-315):
reset all counters and flags, pick the start corner (one draw), find and seed
the starting cell, place the initial hatchery, then place mineral and vespene
deposits. On a zero-sized grid the seed write lands out of bounds and is
dropped, but `activeEdges` still receives the seed index and `creepCount`
still becomes 1, exactly as in the source. -/
def initGridWithTerrain (rng : Nat → ℚ) (cols rows : Nat)
    (th : List ℚ) (tt : List Nat) (noise1 : List ℚ) : World :=
  let size := cols * rows
  let corner := cornerOf cols rows (rng 0)
  let seed := findSeed cols rows tt corner
  let seedIdx := seed.2 * (cols : Int) + seed.1
  let creepGrid := tset (List.replicate size 0) seedIdx 1
  let creepAge := tset (List.replicate size (0 : ℚ)) seedIdx 50
  let pm := placeDeposits rng cols rows tt creepGrid 2 3 (numMinerals cols rows) 1
  let pv := placeDeposits rng cols rows tt creepGrid 3 2 (numVespene cols rows) pm.2
  { cols := cols, rows := rows,
    creepGrid := creepGrid, creepAge := creepAge,
    terrainHeight := th, terrainType := tt,
    minerals := pm.1, vespene := pv.1,
    buildings := [⟨seed.1, seed.2, 0, 0⟩],
    startCorner := corner,
    activeEdges := [seedIdx],
    noiseTexture1 := noise1,
    totalVisibleCells := size,
    isSaturated := false,
    creepCount := 1,
    resourceBoost := 1,
    mineralsGathered := 0,
    vespeneGathered := 0 }

/-! ## Specification predicates -/

/-- The cell at index `p` (decoded exactly as the scan decodes it) has at
least one unoccupied in-bounds 8-neighbor (`creepGrid[nidx] === 0`). -/
def nbrEmptyI (w : World) (p : Int) : Bool :=
  neighborOffsets.any (fun d =>
    let x := Int.tmod p (w.cols : Int)
    let y := Int.fdiv p (w.cols : Int)
    let nx := x + d.1
    let ny := y + d.2
    decide (0 ≤ nx ∧ nx < (w.cols : Int) ∧ 0 ≤ ny ∧ ny < (w.rows : Int)) &&
      isZeroAt w.creepGrid (ny * (w.cols : Int) + nx))

/-! ## Basic lemmas about the typed-array model -/

theorem tset_length {α : Type} (a : List α) (i : Int) (v : α) :
    (tset a i v).length = a.length := by
  unfold tset
  split <;> simp

theorem tget_tset {α : Type} (a : List α) (i j : Int) (v : α) :
    tget (tset a i v) j =
      if j = i ∧ 0 ≤ i ∧ i.toNat < a.length then some v else tget a j := by
  unfold tget tset
  by_cases hi : 0 ≤ i
  · by_cases hj : 0 ≤ j
    · rw [if_pos hi, if_pos hj, if_pos hj, List.getElem?_set]
      by_cases hji : j = i
      · subst hji
        rw [if_pos rfl]
        by_cases hlt : j.toNat < a.length
        · rw [if_pos hlt, if_pos ⟨rfl, hi, hlt⟩]
        · rw [if_neg hlt, if_neg (by tauto), List.getElem?_eq_none (by omega)]
      · have hne : i.toNat ≠ j.toNat := by omega
        rw [if_neg hne, if_neg (by tauto)]
    · rw [if_pos hi, if_neg hj, if_neg hj, if_neg (by rintro ⟨h1, h2, h3⟩; omega)]
  · rw [if_neg hi]
    have hcond : ¬(j = i ∧ 0 ≤ i ∧ i.toNat < a.length) := fun hc => hi hc.2.1
    rw [if_neg hcond]

theorem truthyAt_iff {a : List Nat} {n : Int} :
    truthyAt a n = true ↔ ∃ v, tget a n = some v ∧ v ≠ 0 := by
  unfold truthyAt
  cases hg : tget a n with
  | none => simp
  | some v => simp

theorem isZeroAt_iff {a : List Nat} {n : Int} :
    isZeroAt a n = true ↔ tget a n = some 0 := by
  unfold isZeroAt
  simp

theorem tget_bounds {α : Type} {a : List α} {n : Int} {v : α}
    (h : tget a n = some v) : 0 ≤ n ∧ n.toNat < a.length := by
  unfold tget at h
  split at h
  · exact ⟨by assumption, (List.getElem?_eq_some.mp h).1⟩
  · exact absurd h (by simp)

theorem tget_of_lt {α : Type} {a : List α} {n : Int} (h0 : 0 ≤ n)
    (h : n.toNat < a.length) : tget a n = some a[n.toNat] := by
  unfold tget
  rw [if_pos h0, List.getElem?_eq_getElem h]

theorem truthyAt_bounds {a : List Nat} {n : Int} (h : truthyAt a n = true) :
    0 ≤ n ∧ n.toNat < a.length := by
  rcases truthyAt_iff.mp h with ⟨v, hv, _⟩
  exact tget_bounds hv

theorem isZeroAt_bounds {a : List Nat} {n : Int} (h : isZeroAt a n = true) :
    0 ≤ n ∧ n.toNat < a.length := by
  exact tget_bounds (isZeroAt_iff.mp h)

theorem truthyAt_of_isZeroAt {a : List Nat} {n : Int} (h : isZeroAt a n = true) :
    truthyAt a n = false := by
  rw [isZeroAt_iff] at h
  unfold truthyAt
  rw [h]
  simp

theorem isZeroAt_of_truthyAt {a : List Nat} {n : Int} (h : truthyAt a n = true) :
    isZeroAt a n = false := by
  rcases truthyAt_iff.mp h with ⟨v, hv, hv0⟩
  unfold isZeroAt
  rw [hv]
  simp [hv0]

theorem truthyAt_tset1 {a : List Nat} {n : Int} (i : Int)
    (h : truthyAt a n = true) : truthyAt (tset a i 1) n = true := by
  rcases truthyAt_iff.mp h with ⟨v, hv, hv0⟩
  rw [truthyAt_iff, tget_tset]
  split
  · exact ⟨1, rfl, one_ne_zero⟩
  · exact ⟨v, hv, hv0⟩

theorem truthyAt_tset1_cases {a : List Nat} {n i : Int}
    (h : truthyAt (tset a i 1) n = true) : truthyAt a n = true ∨ n = i := by
  by_cases hni : n = i
  · exact Or.inr hni
  · left
    rcases truthyAt_iff.mp h with ⟨v, hv, hv0⟩
    rw [tget_tset, if_neg (by tauto)] at hv
    exact truthyAt_iff.mpr ⟨v, hv, hv0⟩

theorem truthyAt_tset1_self {a : List Nat} {i : Int}
    (h : isZeroAt a i = true) : truthyAt (tset a i 1) i = true := by
  have hb := isZeroAt_bounds h
  rw [truthyAt_iff, tget_tset, if_pos ⟨rfl, hb.1, hb.2⟩]
  exact ⟨1, rfl, one_ne_zero⟩

/-- Occupation never becomes emptiness: with lengths equal and occupancy
monotone from `a` to `a2`, a cell read as zero in `a2` was zero in `a`. -/
theorem isZeroAt_downward {a a2 : List Nat} {n : Int}
    (hlen : a2.length = a.length)
    (hmono : ∀ m, truthyAt a m = true → truthyAt a2 m = true)
    (h : isZeroAt a2 n = true) : isZeroAt a n = true := by
  have hb := isZeroAt_bounds h
  rw [hlen] at hb
  have hv : tget a n = some a[n.toNat] := tget_of_lt hb.1 hb.2
  rw [isZeroAt_iff, hv]
  by_cases hz : a[n.toNat] = 0
  · rw [hz]
  · exfalso
    have ht : truthyAt a2 n = true := hmono n (truthyAt_iff.mpr ⟨_, hv, hz⟩)
    rw [truthyAt_of_isZeroAt h] at ht
    exact Bool.false_ne_true ht

theorem mem_setAdd_self (l : List Int) (i : Int) : i ∈ setAdd l i := by
  unfold setAdd
  split
  · assumption
  · simp

theorem mem_setAdd_of_mem {l : List Int} {a : Int} (i : Int) (h : a ∈ l) :
    a ∈ setAdd l i := by
  unfold setAdd
  split
  · exact h
  · simp [h]

theorem mem_setAdd {l : List Int} {a i : Int} (h : a ∈ setAdd l i) :
    a ∈ l ∨ a = i := by
  unfold setAdd at h
  split at h
  · exact Or.inl h
  · simp at h
    exact h

theorem mem_foldl_setAdd_of_mem_init {l : List Int} {a : Int}
    (init : List Int) (h : a ∈ init) : a ∈ l.foldl setAdd init := by
  induction l generalizing init with
  | nil => exact h
  | cons x xs ih => exact ih (setAdd init x) (mem_setAdd_of_mem x h)

theorem mem_foldl_setAdd_of_mem {l : List Int} {a : Int}
    (init : List Int) (h : a ∈ l) : a ∈ l.foldl setAdd init := by
  induction l generalizing init with
  | nil => simp at h
  | cons x xs ih =>
    rcases List.mem_cons.mp h with h1 | h2
    · subst h1
      exact mem_foldl_setAdd_of_mem_init (setAdd init a) (mem_setAdd_self init a)
    · exact ih (setAdd init x) h2

theorem mem_of_mem_foldl_setAdd {l : List Int} {a : Int} {init : List Int}
    (h : a ∈ l.foldl setAdd init) : a ∈ init ∨ a ∈ l := by
  induction l generalizing init with
  | nil => exact Or.inl h
  | cons x xs ih =>
    rcases ih h with h1 | h2
    · rcases mem_setAdd h1 with h3 | h4
      · exact Or.inl h3
      · subst h4
        simp
    · simp [h2]

/-! ## Relations preserved by the mutating operations -/

/-- Well-formedness: the creep grid has one entry per cell. Established by
`initGridWithTerrain` and preserved by every operation (lengths never
change). -/
def wfW (w : World) : Prop := w.creepGrid.length = w.cols * w.rows

/-- How any single operation may move `resourceBoost`: never below
`min 1 b`, never above `max 3 b`, and non-decreasing as long as the old
value was within the clamp. -/
structure BoostRel (b b2 : ℚ) : Prop where
  mono3 : b ≤ 3 → b ≤ b2
  lo : min 1 b ≤ b2
  hi : b2 ≤ max 3 b

theorem BoostRel.reflB (b : ℚ) : BoostRel b b :=
  ⟨fun _ => le_refl b, min_le_right 1 b, le_max_right 3 b⟩

theorem BoostRel.transB {a b c : ℚ} (h1 : BoostRel a b) (h2 : BoostRel b c) :
    BoostRel a c := by
  constructor
  · intro ha
    have hb3 : b ≤ 3 := by
      have := h1.hi
      rwa [max_eq_left ha] at this
    exact le_trans (h1.mono3 ha) (h2.mono3 hb3)
  · have h3 : min 1 a ≤ min 1 b := le_min (min_le_left 1 a) h1.lo
    exact le_trans h3 h2.lo
  · have h3 : max 3 b ≤ max 3 (max 3 a) := max_le_max (le_refl 3) h1.hi
    have h4 : max 3 (max 3 a) = max 3 a := by
      rw [← max_assoc, max_self]
    exact le_trans h2.hi (h4 ▸ h3)

/-- The two clamped bumps of `checkResource` satisfy `BoostRel`. -/
theorem BoostRel.bump (b c : ℚ) (hc : 0 ≤ c) : BoostRel b (min 3 (b + c)) := by
  constructor
  · intro hb
    exact le_min hb (by linarith)
  · exact le_min (le_trans (min_le_left 1 b) (by norm_num))
      (le_trans (min_le_right 1 b) (by linarith))
  · exact le_trans (min_le_left 3 (b + c)) (le_max_left 3 b)

/-- What one in-step mutation of the world may do: geometry, terrain, flags
and the boost/counter disciplines. `edgesNew` (new frontier entries are
freshly occupied cells) needs the well-formedness of the source world, which
the relation itself propagates. -/
structure WRel (w w2 : World) : Prop where
  cols : w2.cols = w.cols
  rows : w2.rows = w.rows
  th : w2.terrainHeight = w.terrainHeight
  tt : w2.terrainType = w.terrainType
  noise : w2.noiseTexture1 = w.noiseTexture1
  corner : w2.startCorner = w.startCorner
  total : w2.totalVisibleCells = w.totalVisibleCells
  sat : w2.isSaturated = w.isSaturated
  glen : w2.creepGrid.length = w.creepGrid.length
  mono : ∀ n, truthyAt w.creepGrid n = true → truthyAt w2.creepGrid n = true
  edges : ∀ e, e ∈ w.activeEdges → e ∈ w2.activeEdges
  edgesNew : wfW w → ∀ e, e ∈ w2.activeEdges → e ∈ w.activeEdges ∨
    (truthyAt w2.creepGrid e = true ∧ truthyAt w.creepGrid e = false)
  boost : BoostRel w.resourceBoost w2.resourceBoost
  mg : 0 ≤ w.mineralsGathered → 0 ≤ w2.mineralsGathered
  vg : 0 ≤ w.vespeneGathered → 0 ≤ w2.vespeneGathered

theorem WRel.wf {w w2 : World} (r : WRel w w2) (h : wfW w) : wfW w2 := by
  unfold wfW at h ⊢
  rw [r.glen, r.cols, r.rows, h]

theorem WRel.reflW (w : World) : WRel w w where
  cols := rfl
  rows := rfl
  th := rfl
  tt := rfl
  noise := rfl
  corner := rfl
  total := rfl
  sat := rfl
  glen := rfl
  mono := fun _ h => h
  edges := fun _ h => h
  edgesNew := fun _ _ h => Or.inl h
  boost := BoostRel.reflB w.resourceBoost
  mg := fun h => h
  vg := fun h => h

theorem WRel.transW {a b c : World} (r1 : WRel a b) (r2 : WRel b c) :
    WRel a c where
  cols := r2.cols.trans r1.cols
  rows := r2.rows.trans r1.rows
  th := r2.th.trans r1.th
  tt := r2.tt.trans r1.tt
  noise := r2.noise.trans r1.noise
  corner := r2.corner.trans r1.corner
  total := r2.total.trans r1.total
  sat := r2.sat.trans r1.sat
  glen := r2.glen.trans r1.glen
  mono := fun n h => r2.mono n (r1.mono n h)
  edges := fun e h => r2.edges e (r1.edges e h)
  edgesNew := by
    intro hwf e he
    rcases r2.edgesNew (r1.wf hwf) e he with h1 | h2
    · rcases r1.edgesNew hwf e h1 with h3 | h4
      · exact Or.inl h3
      · exact Or.inr ⟨r2.mono e h4.1, h4.2⟩
    · right
      refine ⟨h2.1, ?_⟩
      by_cases ht : truthyAt a.creepGrid e = true
      · rw [r1.mono e ht] at h2
        simp at h2
      · simpa using ht
  boost := r1.boost.transB r2.boost
  mg := fun h => r2.mg (r1.mg h)
  vg := fun h => r2.vg (r1.vg h)

/-- `WRel` plus: any freshly occupied cell is registered in the frontier.
Holds for the world-level operations (`hatcherySeedCell`,
`maybeSpawnHatcheryNear`, `checkResource`), whose only occupations go through
the 3x3 hatchery seeding that adds to `activeEdges`. -/
structure WRelE (w w2 : World) extends WRel w w2 : Prop where
  occReg : ∀ n, truthyAt w2.creepGrid n = true →
    truthyAt w.creepGrid n = true ∨ n ∈ w2.activeEdges

theorem WRelE.reflWE (w : World) : WRelE w w :=
  ⟨WRel.reflW w, fun _ h => Or.inl h⟩

theorem WRelE.transWE {a b c : World} (r1 : WRelE a b) (r2 : WRelE b c) :
    WRelE a c := by
  refine ⟨r1.toWRel.transW r2.toWRel, ?_⟩
  intro n h
  rcases r2.occReg n h with h1 | h2
  · rcases r1.occReg n h1 with h3 | h4
    · exact Or.inl h3
    · exact Or.inr (r2.edges n h4)
  · exact Or.inr h2

/-- An occupied cell stays occupied, so the set of in-bounds empty
8-neighbors only shrinks along a `WRel` step. -/
theorem nbrEmptyI_mono {v v2 : World} {p : Int} (r : WRel v v2)
    (h : nbrEmptyI v2 p = true) : nbrEmptyI v p = true := by
  unfold nbrEmptyI at h ⊢
  rw [List.any_eq_true] at h ⊢
  rcases h with ⟨d, hd, hcond⟩
  refine ⟨d, hd, ?_⟩
  rw [Bool.and_eq_true] at hcond ⊢
  rw [r.cols, r.rows] at hcond
  refine ⟨hcond.1, ?_⟩
  exact isZeroAt_downward r.glen r.mono hcond.2

/-- What one in-step mutation of the whole loop state may do. -/
structure SRel (s s2 : StepState) : Prop where
  wrel : WRel s.w s2.w
  occReg : ∀ n, truthyAt s2.w.creepGrid n = true →
    truthyAt s.w.creepGrid n = true ∨ n ∈ s2.w.activeEdges ∨ n ∈ s2.newEdges
  ne : ∀ q, q ∈ s.newEdges → q ∈ s2.newEdges
  neNew : ∀ q, q ∈ s2.newEdges → q ∈ s.newEdges ∨
    (truthyAt s2.w.creepGrid q = true ∧ truthyAt s.w.creepGrid q = false)
  sc : ∀ q, q ∈ s.scanned → q ∈ s2.scanned
  scNew : ∀ q, q ∈ s2.scanned → q ∈ s.scanned ∨ q ∈ s2.w.activeEdges
  tr : ∀ p, p ∈ s.toRemove → p ∈ s2.toRemove
  trNew : ∀ p, p ∈ s2.toRemove → p ∈ s.toRemove ∨
    (nbrEmptyI s2.w p = false ∧ p ∈ s2.scanned)

theorem SRel.reflS (s : StepState) : SRel s s where
  wrel := WRel.reflW s.w
  occReg := fun _ h => Or.inl h
  ne := fun _ h => h
  neNew := fun _ h => Or.inl h
  sc := fun _ h => h
  scNew := fun _ h => Or.inl h
  tr := fun _ h => h
  trNew := fun _ h => Or.inl h

theorem SRel.transS {a b c : StepState} (r1 : SRel a b) (r2 : SRel b c) :
    SRel a c where
  wrel := r1.wrel.transW r2.wrel
  occReg := by
    intro n h
    rcases r2.occReg n h with h1 | h2 | h3
    · rcases r1.occReg n h1 with h4 | h5 | h6
      · exact Or.inl h4
      · exact Or.inr (Or.inl (r2.wrel.edges n h5))
      · exact Or.inr (Or.inr (r2.ne n h6))
    · exact Or.inr (Or.inl h2)
    · exact Or.inr (Or.inr h3)
  ne := fun q h => r2.ne q (r1.ne q h)
  neNew := by
    intro q h
    rcases r2.neNew q h with h1 | h2
    · rcases r1.neNew q h1 with h3 | h4
      · exact Or.inl h3
      · exact Or.inr ⟨r2.wrel.mono q h4.1, h4.2⟩
    · right
      refine ⟨h2.1, ?_⟩
      by_cases ht : truthyAt a.w.creepGrid q = true
      · rw [r1.wrel.mono q ht] at h2
        simp at h2
      · simpa using ht
  sc := fun q h => r2.sc q (r1.sc q h)
  scNew := by
    intro q h
    rcases r2.scNew q h with h1 | h2
    · rcases r1.scNew q h1 with h3 | h4
      · exact Or.inl h3
      · exact Or.inr (r2.wrel.edges q h4)
    · exact Or.inr h2
  tr := fun p h => r2.tr p (r1.tr p h)
  trNew := by
    intro p h
    rcases r2.trNew p h with h1 | h2
    · rcases r1.trNew p h1 with h3 | h4
      · exact Or.inl h3
      · right
        refine ⟨?_, r2.sc p h4.2⟩
        by_cases he : nbrEmptyI c.w p = true
        · rw [nbrEmptyI_mono r2.wrel he] at h4
          simp at h4
        · simpa using he
    · exact Or.inr h2

/-- Preservation of a binary relation along a left fold. -/
theorem foldl_rel {α β : Type} (R : β → β → Prop)
    (hrefl : ∀ b, R b b)
    (htrans : ∀ a b c, R a b → R b c → R a c)
    (f : β → α → β) (l : List α)
    (hstep : ∀ c a, a ∈ l → R c (f c a)) :
    ∀ b, R b (l.foldl f b) := by
  induction l with
  | nil => exact hrefl
  | cons x xs ih =>
    intro b
    have h1 : R b (f b x) := hstep b x (by simp)
    have h2 : R (f b x) (xs.foldl f (f b x)) :=
      ih (fun c a ha => hstep c a (by simp [ha])) (f b x)
    exact htrans _ _ _ h1 h2

theorem truthyAt_tset1_self_of_lt {a : List Nat} {i : Int} (h0 : 0 ≤ i)
    (h : i.toNat < a.length) : truthyAt (tset a i 1) i = true := by
  rw [truthyAt_iff, tget_tset, if_pos ⟨rfl, h0, h⟩]
  exact ⟨1, rfl, one_ne_zero⟩

/-- A bounds-checked cell coordinate yields an index inside the grid. -/
theorem cellIdx_bounds {cols rows : Nat} {x y : Int} (hx0 : 0 ≤ x)
    (hx : x < (cols : Int)) (hy0 : 0 ≤ y) (hy : y < (rows : Int)) :
    0 ≤ y * (cols : Int) + x ∧ (y * (cols : Int) + x).toNat < cols * rows := by
  have h0 : 0 ≤ y * (cols : Int) + x := by positivity
  have h1 : (y + 1) * (cols : Int) ≤ (rows : Int) * (cols : Int) := by
    apply mul_le_mul_of_nonneg_right (by omega) (by positivity)
  have h2 : y * (cols : Int) + x < (cols : Int) * (rows : Int) := by
    nlinarith
  have h3 : ((cols * rows : Nat) : Int) = (cols : Int) * (rows : Int) := by
    push_cast
    ring
  refine ⟨h0, ?_⟩
  omega

/-- `WRelE` plus: deposits, gathered counters and the boost are untouched,
as along the 3x3 hatchery seeding fold. -/
structure SeedRel (w w2 : World) extends WRelE w w2 : Prop where
  mins : w2.minerals = w.minerals
  vesp : w2.vespene = w.vespene
  mg2 : w2.mineralsGathered = w.mineralsGathered
  vg2 : w2.vespeneGathered = w.vespeneGathered
  boost2 : w2.resourceBoost = w.resourceBoost

theorem SeedRel.reflSeed (w : World) : SeedRel w w :=
  ⟨WRelE.reflWE w, rfl, rfl, rfl, rfl, rfl⟩

theorem SeedRel.transSeed {a b c : World} (r1 : SeedRel a b) (r2 : SeedRel b c) :
    SeedRel a c :=
  ⟨r1.toWRelE.transWE r2.toWRelE, r2.mins.trans r1.mins, r2.vesp.trans r1.vesp,
   r2.mg2.trans r1.mg2, r2.vg2.trans r1.vg2, r2.boost2.trans r1.boost2⟩

theorem hatcherySeedCell_seedRel (chosen : Int × Int) (w : World)
    (d : Int × Int) : SeedRel w (hatcherySeedCell chosen w d) := by
  unfold hatcherySeedCell
  dsimp only
  split_ifs with hA hB hC
  · exact SeedRel.reflSeed w
  · -- occupy a fresh in-bounds cell
    push_neg at hA
    obtain ⟨hx0, hx, hy0, hy⟩ := hA
    refine ⟨⟨⟨rfl, rfl, rfl, rfl, rfl, rfl, rfl, rfl, tset_length _ _ _,
      fun n h => truthyAt_tset1 _ h,
      fun e h => mem_setAdd_of_mem _ h, ?_, BoostRel.reflB _,
      fun h => h, fun h => h⟩, ?_⟩, rfl, rfl, rfl, rfl, rfl⟩
    · intro hwf e he
      rcases mem_setAdd he with h1 | h2
      · exact Or.inl h1
      · subst h2
        have hb := cellIdx_bounds hx0 hx hy0 hy
        right
        refine ⟨truthyAt_tset1_self_of_lt hb.1 ?_, by simpa using hC⟩
        rw [hwf]
        exact hb.2
    · intro n h
      rcases truthyAt_tset1_cases h with h1 | h2
      · exact Or.inl h1
      · subst h2
        exact Or.inr (mem_setAdd_self _ _)
  · -- age floor bump on an occupied cell
    exact ⟨⟨⟨rfl, rfl, rfl, rfl, rfl, rfl, rfl, rfl, rfl,
      fun _ h => h, fun _ h => h, fun _ _ h => Or.inl h, BoostRel.reflB _,
      fun h => h, fun h => h⟩, fun _ h => Or.inl h⟩, rfl, rfl, rfl, rfl, rfl⟩
  · exact SeedRel.reflSeed w

/-- `WRelE` plus: deposits and the boost are untouched, as by
`maybeSpawnHatcheryNear` (which may, however, spend the counters). -/
structure SpawnRel (w w2 : World) extends WRelE w w2 : Prop where
  mins : w2.minerals = w.minerals
  vesp : w2.vespene = w.vespene
  boost2 : w2.resourceBoost = w.resourceBoost

theorem SpawnRel.reflSpawn (w : World) : SpawnRel w w :=
  ⟨WRelE.reflWE w, rfl, rfl, rfl⟩

/-- The `SeedRel` accumulated by the hatchery push plus the 3x3 seeding fold
of the main branch of `maybeSpawnHatcheryNear`. -/
theorem spawnCore_seedRel (w : World) (chosen : Int × Int) :
    SeedRel w (((intsFromTo (-1) 1).flatMap (fun dy =>
        (intsFromTo (-1) 1).map (fun dx => (dy, dx)))).foldl
      (hatcherySeedCell chosen)
      { w with buildings := w.buildings ++ [⟨chosen.1, chosen.2, 0, 0⟩] }) := by
  have r0 : SeedRel w { w with
      buildings := w.buildings ++ [⟨chosen.1, chosen.2, 0, 0⟩] } :=
    ⟨⟨⟨rfl, rfl, rfl, rfl, rfl, rfl, rfl, rfl, rfl,
      fun _ h => h, fun _ h => h, fun _ _ h => Or.inl h, BoostRel.reflB _,
      fun h => h, fun h => h⟩, fun _ h => Or.inl h⟩, rfl, rfl, rfl, rfl, rfl⟩
  have r1 := foldl_rel SeedRel SeedRel.reflSeed
    (fun a b c h1 h2 => SeedRel.transSeed h1 h2)
    (hatcherySeedCell chosen)
    ((intsFromTo (-1) 1).flatMap (fun dy =>
      (intsFromTo (-1) 1).map (fun dx => (dy, dx))))
    (fun c a _ => hatcherySeedCell_seedRel chosen c a)
    { w with buildings := w.buildings ++ [⟨chosen.1, chosen.2, 0, 0⟩] }
  exact SeedRel.transSeed r0 r1

theorem maybeSpawn_spawnRel (rng : Nat → ℚ) (w : World) (k : Nat)
    (tx ty : Int) : SpawnRel w (maybeSpawnHatcheryNear rng w k tx ty).1 := by
  unfold maybeSpawnHatcheryNear
  dsimp only
  split_ifs with hGate hCoin hEmpty
  · exact SpawnRel.reflSpawn w
  · exact SpawnRel.reflSpawn w
  · exact SpawnRel.reflSpawn w
  · push_neg at hGate
    have r := spawnCore_seedRel w
      ((hatcheryCandidates w tx ty).getD
        (jsFloor (rng (k + 1) * ((hatcheryCandidates w tx ty).length : ℚ))).toNat
        (0, 0))
    refine ⟨⟨⟨r.cols, r.rows, r.th, r.tt, r.noise, r.corner, r.total, r.sat,
      r.glen, r.mono, r.edges, r.edgesNew, ?_, ?_, ?_⟩, r.occReg⟩,
      r.mins, r.vesp, r.boost2⟩
    · dsimp only
      rw [r.boost2]
      exact BoostRel.reflB _
    · intro _
      dsimp only
      rw [r.mg2]
      unfold HATCHERY_MINERAL_COST at *
      omega
    · intro _
      dsimp only
      rw [r.vg2]
      unfold HATCHERY_VESPENE_COST at *
      omega

/-- Spending discipline of `maybeSpawnHatcheryNear`: exact no-ops on the
gate, the coin flip and the empty candidate scan, and the exact deduction
when a hatchery is placed. -/
theorem maybeSpawn_spend (rng : Nat → ℚ) (w : World) (k : Nat) (tx ty : Int) :
    (w.mineralsGathered < HATCHERY_MINERAL_COST ∨
        w.vespeneGathered < HATCHERY_VESPENE_COST →
      maybeSpawnHatcheryNear rng w k tx ty = (w, k)) ∧
    (¬(w.mineralsGathered < HATCHERY_MINERAL_COST ∨
        w.vespeneGathered < HATCHERY_VESPENE_COST) →
      HATCHERY_SPAWN_CHANCE < rng k →
      maybeSpawnHatcheryNear rng w k tx ty = (w, k + 1)) ∧
    (¬(w.mineralsGathered < HATCHERY_MINERAL_COST ∨
        w.vespeneGathered < HATCHERY_VESPENE_COST) →
      ¬HATCHERY_SPAWN_CHANCE < rng k →
      hatcheryCandidates w tx ty = [] →
      maybeSpawnHatcheryNear rng w k tx ty = (w, k + 1)) ∧
    (¬(w.mineralsGathered < HATCHERY_MINERAL_COST ∨
        w.vespeneGathered < HATCHERY_VESPENE_COST) →
      ¬HATCHERY_SPAWN_CHANCE < rng k →
      hatcheryCandidates w tx ty ≠ [] →
      (maybeSpawnHatcheryNear rng w k tx ty).1.mineralsGathered =
        w.mineralsGathered - HATCHERY_MINERAL_COST ∧
      (maybeSpawnHatcheryNear rng w k tx ty).1.vespeneGathered =
        w.vespeneGathered - HATCHERY_VESPENE_COST) := by
  refine ⟨?_, ?_, ?_, ?_⟩
  · intro h
    unfold maybeSpawnHatcheryNear
    rw [if_pos h]
  · intro h hc
    unfold maybeSpawnHatcheryNear
    rw [if_neg h, if_pos hc]
  · intro h hc he
    unfold maybeSpawnHatcheryNear
    dsimp only
    rw [if_neg h, if_neg hc, if_pos he]
  · intro h hc he
    unfold maybeSpawnHatcheryNear
    dsimp only
    rw [if_neg h, if_neg hc, if_neg he]
    have r := spawnCore_seedRel w
      ((hatcheryCandidates w tx ty).getD
        (jsFloor (rng (k + 1) * ((hatcheryCandidates w tx ty).length : ℚ))).toNat
        (0, 0))
    refine ⟨?_, ?_⟩ <;> dsimp only
    · rw [r.mg2]
    · rw [r.vg2]

theorem checkResource_wrelE (rng : Nat → ℚ) (w : World) (k : Nat) (x y : Int) :
    WRelE w (checkResource rng w k x y).1 := by
  unfold checkResource
  cases hm : firstHit w.minerals x y 25 with
  | some j =>
    dsimp only
    have r1 : WRelE w { w with
        minerals := w.minerals.set j
          { w.minerals.getD j noDeposit with depleted := true },
        resourceBoost := min 3 (w.resourceBoost + 1/2),
        mineralsGathered := w.mineralsGathered + 1,
        buildings := w.buildings ++
          [⟨(w.minerals.getD j noDeposit).x, (w.minerals.getD j noDeposit).y,
            1, 0⟩] } :=
      ⟨⟨rfl, rfl, rfl, rfl, rfl, rfl, rfl, rfl, rfl,
        fun _ h => h, fun _ h => h, fun _ _ h => Or.inl h,
        BoostRel.bump _ _ (by norm_num), fun h => by dsimp only; omega,
        fun h => h⟩, fun _ h => Or.inl h⟩
    exact r1.transWE (maybeSpawn_spawnRel rng { w with
        minerals := w.minerals.set j
          { w.minerals.getD j noDeposit with depleted := true },
        resourceBoost := min 3 (w.resourceBoost + 1/2),
        mineralsGathered := w.mineralsGathered + 1,
        buildings := w.buildings ++
          [⟨(w.minerals.getD j noDeposit).x, (w.minerals.getD j noDeposit).y,
            1, 0⟩] } k
      (w.minerals.getD j noDeposit).x (w.minerals.getD j noDeposit).y).toWRelE
  | none =>
    cases hv : firstHit w.vespene x y 36 with
    | some j =>
      dsimp only
      have r1 : WRelE w { w with
          vespene := w.vespene.set j
            { w.vespene.getD j noDeposit with depleted := true },
          resourceBoost := min 3 (w.resourceBoost + 1),
          vespeneGathered := w.vespeneGathered + 1,
          buildings := w.buildings ++
            [⟨(w.vespene.getD j noDeposit).x, (w.vespene.getD j noDeposit).y,
              2, 0⟩] } :=
        ⟨⟨rfl, rfl, rfl, rfl, rfl, rfl, rfl, rfl, rfl,
          fun _ h => h, fun _ h => h, fun _ _ h => Or.inl h,
          BoostRel.bump _ _ (by norm_num), fun h => h,
          fun h => by dsimp only; omega⟩, fun _ h => Or.inl h⟩
      exact r1.transWE (maybeSpawn_spawnRel rng { w with
          vespene := w.vespene.set j
            { w.vespene.getD j noDeposit with depleted := true },
          resourceBoost := min 3 (w.resourceBoost + 1),
          vespeneGathered := w.vespeneGathered + 1,
          buildings := w.buildings ++
            [⟨(w.vespene.getD j noDeposit).x, (w.vespene.getD j noDeposit).y,
              2, 0⟩] } k
        (w.vespene.getD j noDeposit).x (w.vespene.getD j noDeposit).y).toWRelE
    | none => exact WRelE.reflWE w

/-- The mutation footprint of `checkResource` on the deposit lists, the boost
and the returned discovery, case by case on the first hit. -/
theorem checkResource_spec (rng : Nat → ℚ) (w : World) (k : Nat) (x y : Int) :
    (∀ j, firstHit w.minerals x y 25 = some j →
      (checkResource rng w k x y).1.minerals =
        w.minerals.set j { w.minerals.getD j noDeposit with depleted := true } ∧
      (checkResource rng w k x y).1.vespene = w.vespene ∧
      (checkResource rng w k x y).1.resourceBoost =
        min 3 (w.resourceBoost + 1/2) ∧
      (checkResource rng w k x y).2.2 = some ⟨ResKind.mineral, 2⟩) ∧
    (firstHit w.minerals x y 25 = none → ∀ j,
      firstHit w.vespene x y 36 = some j →
      (checkResource rng w k x y).1.vespene =
        w.vespene.set j { w.vespene.getD j noDeposit with depleted := true } ∧
      (checkResource rng w k x y).1.minerals = w.minerals ∧
      (checkResource rng w k x y).1.resourceBoost =
        min 3 (w.resourceBoost + 1) ∧
      (checkResource rng w k x y).2.2 = some ⟨ResKind.vespene, 3⟩) ∧
    (firstHit w.minerals x y 25 = none → firstHit w.vespene x y 36 = none →
      checkResource rng w k x y = (w, k, none)) := by
  refine ⟨?_, ?_, ?_⟩
  · intro j hm
    unfold checkResource
    rw [hm]
    dsimp only
    have r := maybeSpawn_spawnRel rng { w with
        minerals := w.minerals.set j
          { w.minerals.getD j noDeposit with depleted := true },
        resourceBoost := min 3 (w.resourceBoost + 1/2),
        mineralsGathered := w.mineralsGathered + 1,
        buildings := w.buildings ++
          [⟨(w.minerals.getD j noDeposit).x, (w.minerals.getD j noDeposit).y,
            1, 0⟩] } k
      (w.minerals.getD j noDeposit).x (w.minerals.getD j noDeposit).y
    exact ⟨r.mins, r.vesp, r.boost2, rfl⟩
  · intro hm j hv
    unfold checkResource
    rw [hm, hv]
    dsimp only
    have r := maybeSpawn_spawnRel rng { w with
        vespene := w.vespene.set j
          { w.vespene.getD j noDeposit with depleted := true },
        resourceBoost := min 3 (w.resourceBoost + 1),
        vespeneGathered := w.vespeneGathered + 1,
        buildings := w.buildings ++
          [⟨(w.vespene.getD j noDeposit).x, (w.vespene.getD j noDeposit).y,
            2, 0⟩] } k
      (w.vespene.getD j noDeposit).x (w.vespene.getD j noDeposit).y
    exact ⟨r.vesp, r.mins, r.boost2, rfl⟩
  · intro hm hv
    unfold checkResource
    rw [hm, hv]

/-- `firstHit` only ever selects an undepleted deposit within range. -/
theorem firstHit_spec (ds : List Deposit) (x y r : Int) :
    ∀ j, firstHit ds x y r = some j →
      ∃ d, ds[j]? = some d ∧ d.depleted = false ∧
        (x - d.x) * (x - d.x) + (y - d.y) * (y - d.y) < r := by
  induction ds with
  | nil =>
    intro j h
    simp [firstHit] at h
  | cons d rest ih =>
    intro j h
    unfold firstHit at h
    split_ifs at h with hcond
    · simp at h
      subst h
      exact ⟨d, by simp, hcond.1, hcond.2⟩
    · cases hr : firstHit rest x y r with
      | none =>
        rw [hr] at h
        simp at h
      | some j0 =>
        rw [hr] at h
        simp at h
        subst h
        rcases ih j0 hr with ⟨d0, hd0, hdep, hdist⟩
        exact ⟨d0, by simpa using hd0, hdep, hdist⟩

/-- Against a list of only depleted deposits, `firstHit` finds nothing. -/
theorem firstHit_none (ds : List Deposit) (x y r : Int)
    (h : ∀ d ∈ ds, d.depleted = true) : firstHit ds x y r = none := by
  induction ds with
  | nil => rfl
  | cons d rest ih =>
    unfold firstHit
    rw [if_neg, ih (fun d0 hd0 => h d0 (by simp [hd0]))]
    · rfl
    · rintro ⟨h1, h2⟩
      rw [h d (by simp)] at h1
      simp at h1

/-! ## Step-state lemmas for the frontier scan -/

theorem processNeighbor_srel (rng : Nat → ℚ) (cb : ℚ) (x y : Int)
    (d : Int × Int) (s : StepState) :
    SRel s (processNeighbor rng cb x y d s).1 := by
  unfold processNeighbor
  dsimp only
  split_ifs with hOOB hz hroll
  · exact SRel.reflS s
  · -- growth roll succeeded
    have rw1 := checkResource_wrelE rng s.w s.k (x + d.1) (y + d.2)
    have hb := isZeroAt_bounds hz
    refine ⟨?_, ?_, ?_, ?_, fun q h => h, fun q h => Or.inl h,
      fun p h => h, fun p h => Or.inl h⟩
    · refine WRel.transW rw1.toWRel ⟨rfl, rfl, rfl, rfl, rfl, rfl, rfl, rfl,
        tset_length _ _ _, fun n h => truthyAt_tset1 _ h, fun e h => h,
        fun _ e h => Or.inl h, BoostRel.reflB _, fun h => h, fun h => h⟩
    · intro n hn
      rcases truthyAt_tset1_cases hn with h1 | h2
      · rcases rw1.occReg n h1 with h3 | h4
        · exact Or.inl h3
        · exact Or.inr (Or.inl h4)
      · subst h2
        exact Or.inr (Or.inr (mem_setAdd_self _ _))
    · intro q h
      exact mem_setAdd_of_mem _ h
    · intro q hq
      rcases mem_setAdd hq with h1 | h2
      · exact Or.inl h1
      · subst h2
        right
        constructor
        · refine truthyAt_tset1_self_of_lt hb.1 ?_
          rw [rw1.glen]
          exact hb.2
        · exact truthyAt_of_isZeroAt hz
  · -- growth roll failed: only the checkResource effects remain
    have rw1 := checkResource_wrelE rng s.w s.k (x + d.1) (y + d.2)
    refine ⟨rw1.toWRel, ?_, fun q h => h, fun q h => Or.inl h,
      fun q h => h, fun q h => Or.inl h, fun p h => h, fun p h => Or.inl h⟩
    intro n hn
    rcases rw1.occReg n hn with h1 | h2
    · exact Or.inl h1
    · exact Or.inr (Or.inl h2)
  · exact SRel.reflS s

/-- When a neighbor contributes `false` to `hasEmptyNeighbor` despite being
in bounds, it was not read as empty at its check time. -/
theorem processNeighbor_false (rng : Nat → ℚ) (cb : ℚ) (x y : Int)
    (d : Int × Int) (s : StepState)
    (h : (processNeighbor rng cb x y d s).2 = false)
    (hin : ¬(x + d.1 < 0 ∨ (s.w.cols : Int) ≤ x + d.1 ∨ y + d.2 < 0 ∨
      (s.w.rows : Int) ≤ y + d.2)) :
    isZeroAt s.w.creepGrid ((y + d.2) * (s.w.cols : Int) + (x + d.1)) = false := by
  unfold processNeighbor at h
  dsimp only at h
  rw [if_neg hin] at h
  by_cases hz : isZeroAt s.w.creepGrid ((y + d.2) * (s.w.cols : Int) + (x + d.1)) = true
  · rw [if_pos hz] at h
    split_ifs at h
  · simpa using hz

/-- Relation on the neighbor-fold accumulator: `SRel` on the state and
monotonicity of the accumulated flag. -/
def PRel (p q : StepState × Bool) : Prop :=
  SRel p.1 q.1 ∧ (p.2 = true → q.2 = true)

theorem PRel.reflP (p : StepState × Bool) : PRel p p :=
  ⟨SRel.reflS p.1, fun h => h⟩

theorem PRel.transP {a b c : StepState × Bool} (r1 : PRel a b) (r2 : PRel b c) :
    PRel a c :=
  ⟨r1.1.transS r2.1, fun h => r2.2 (r1.2 h)⟩

theorem scanNbr_prel (rng : Nat → ℚ) (cb : ℚ) (x y : Int)
    (p : StepState × Bool) (d : Int × Int) :
    PRel p (scanNbr rng cb x y p d) :=
  ⟨processNeighbor_srel rng cb x y d p.1, fun h => by
    unfold scanNbr
    dsimp only
    rw [h, Bool.true_or]⟩

theorem scanFold_prel (rng : Nat → ℚ) (cb : ℚ) (x y : Int)
    (L : List (Int × Int)) (p : StepState × Bool) :
    PRel p (L.foldl (scanNbr rng cb x y) p) :=
  foldl_rel PRel PRel.reflP (fun a b c h1 h2 => PRel.transP h1 h2)
    (scanNbr rng cb x y) L (fun c a _ => scanNbr_prel rng cb x y c a) p

/-- If the whole neighbor fold reports no empty neighbor, then at the end of
the fold every in-bounds neighbor reads as non-empty (monotonicity carries
each check-time reading to the end of the fold). -/
theorem scanFold_false (rng : Nat → ℚ) (cb : ℚ) (x y : Int) :
    ∀ (L : List (Int × Int)) (p : StepState × Bool),
      (L.foldl (scanNbr rng cb x y) p).2 = false →
      p.2 = false ∧ ∀ d ∈ L,
        ¬(x + d.1 < 0 ∨ (p.1.w.cols : Int) ≤ x + d.1 ∨ y + d.2 < 0 ∨
          (p.1.w.rows : Int) ≤ y + d.2) →
        isZeroAt (L.foldl (scanNbr rng cb x y) p).1.w.creepGrid
          ((y + d.2) * (p.1.w.cols : Int) + (x + d.1)) = false := by
  intro L
  induction L with
  | nil =>
    intro p h
    exact ⟨h, by intro d hd; simp at hd⟩
  | cons d0 L2 ih =>
    intro p h
    rw [List.foldl_cons] at h
    rcases ih (scanNbr rng cb x y p d0) h with ⟨h0, hall⟩
    have hq : (processNeighbor rng cb x y d0 p.1).2 = false := by
      unfold scanNbr at h0
      dsimp only at h0
      rcases Bool.or_eq_false_iff.mp h0 with ⟨h1, h2⟩
      exact h2
    have hp2 : p.2 = false := by
      unfold scanNbr at h0
      dsimp only at h0
      exact (Bool.or_eq_false_iff.mp h0).1
    have rstep : SRel p.1 (scanNbr rng cb x y p d0).1 :=
      processNeighbor_srel rng cb x y d0 p.1
    have rrest : SRel (scanNbr rng cb x y p d0).1
        (L2.foldl (scanNbr rng cb x y) (scanNbr rng cb x y p d0)).1 :=
      (scanFold_prel rng cb x y L2 (scanNbr rng cb x y p d0)).1
    have rall : SRel p.1
        (L2.foldl (scanNbr rng cb x y) (scanNbr rng cb x y p d0)).1 :=
      rstep.transS rrest
    refine ⟨hp2, ?_⟩
    intro d hd hin
    rcases List.mem_cons.mp hd with h1 | h2
    · subst h1
      have hz0 := processNeighbor_false rng cb x y d p.1 hq hin
      rw [List.foldl_cons]
      by_cases hzf : isZeroAt
          (L2.foldl (scanNbr rng cb x y) (scanNbr rng cb x y p d)).1.w.creepGrid
          ((y + d.2) * (p.1.w.cols : Int) + (x + d.1)) = true
      · exfalso
        have hdown := isZeroAt_downward rall.wrel.glen rall.wrel.mono hzf
        rw [hz0] at hdown
        simp at hdown
      · simpa using hzf
    · have hcols : (scanNbr rng cb x y p d0).1.w.cols = p.1.w.cols :=
        rstep.wrel.cols
      have hrows : (scanNbr rng cb x y p d0).1.w.rows = p.1.w.rows :=
        rstep.wrel.rows
      have := hall d h2 (by rw [hcols, hrows]; exact hin)
      rw [List.foldl_cons]
      rw [hcols] at this
      exact this

theorem nbrEmptyI_cols_zero {w : World} (h : w.cols = 0) (p : Int) :
    nbrEmptyI w p = false := by
  refine List.any_eq_false.mpr ?_
  intro d hd
  dsimp only [nbrEmptyI]
  rw [Bool.not_eq_true, Bool.and_eq_false_iff]
  left
  rw [decide_eq_false_iff_not]
  rintro ⟨h1, h2, h3⟩
  rw [h] at h1 h2
  omega

/-- If every in-bounds 8-neighbor of `p` reads non-empty, `p` has no empty
neighbor. -/
theorem nbrEmptyI_eq_false_of {w : World} {p : Int}
    (h : ∀ d ∈ neighborOffsets,
      ¬(Int.tmod p (w.cols : Int) + d.1 < 0 ∨
        (w.cols : Int) ≤ Int.tmod p (w.cols : Int) + d.1 ∨
        Int.fdiv p (w.cols : Int) + d.2 < 0 ∨
        (w.rows : Int) ≤ Int.fdiv p (w.cols : Int) + d.2) →
      isZeroAt w.creepGrid
        ((Int.fdiv p (w.cols : Int) + d.2) * (w.cols : Int) +
          (Int.tmod p (w.cols : Int) + d.1)) = false) :
    nbrEmptyI w p = false := by
  refine List.any_eq_false.mpr ?_
  intro d hd
  dsimp only [nbrEmptyI]
  by_cases hb : 0 ≤ Int.tmod p (w.cols : Int) + d.1 ∧
      Int.tmod p (w.cols : Int) + d.1 < (w.cols : Int) ∧
      0 ≤ Int.fdiv p (w.cols : Int) + d.2 ∧
      Int.fdiv p (w.cols : Int) + d.2 < (w.rows : Int)
  · rw [Bool.not_eq_true, Bool.and_eq_false_iff]
    right
    refine h d hd ?_
    rintro (h1 | h2 | h3 | h4) <;> omega
  · rw [Bool.not_eq_true, Bool.and_eq_false_iff]
    left
    rw [decide_eq_false_iff_not]
    exact hb

/-- A propositional-transport form of `nbrEmptyI_eq_false_of`, with the
geometry given through equations (as recovered from the relation chain). -/
theorem nbrEmptyI_false_from_scan {v : World} {p : Int} (cols rows : Nat)
    (hc : v.cols = cols) (hr : v.rows = rows)
    (h : ∀ d ∈ neighborOffsets,
      ¬(Int.tmod p (cols : Int) + d.1 < 0 ∨
        (cols : Int) ≤ Int.tmod p (cols : Int) + d.1 ∨
        Int.fdiv p (cols : Int) + d.2 < 0 ∨
        (rows : Int) ≤ Int.fdiv p (cols : Int) + d.2) →
      isZeroAt v.creepGrid
        ((Int.fdiv p (cols : Int) + d.2) * (cols : Int) +
          (Int.tmod p (cols : Int) + d.1)) = false) :
    nbrEmptyI v p = false := by
  subst hc
  subst hr
  exact nbrEmptyI_eq_false_of h

/-- The age update and scan-trace append at the end of one frontier cell's
processing. -/
theorem ageScan_srel (t1 : StepState) (idx : Int)
    (hmem : idx ∈ t1.w.activeEdges) :
    SRel t1 { t1 with
      w := { t1.w with
        creepAge := tset t1.w.creepAge idx
          (min 100 (qAt t1.w.creepAge idx + 1/5)) },
      scanned := t1.scanned ++ [idx] } := by
  refine ⟨⟨rfl, rfl, rfl, rfl, rfl, rfl, rfl, rfl, rfl, fun _ h => h,
    fun _ h => h, fun _ _ h => Or.inl h, BoostRel.reflB _,
    fun h => h, fun h => h⟩, fun _ h => Or.inl h, fun q h => h,
    fun q h => Or.inl h, fun q h => List.mem_append_left _ h, ?_,
    fun p h => h, fun p h => Or.inl h⟩
  intro q hq
  rcases List.mem_append.mp hq with h1 | h2
  · exact Or.inl h1
  · simp at h2
    subst h2
    exact Or.inr hmem

/-- Queueing a scanned cell with no empty neighbor for removal. -/
theorem removeQueue_srel (s1 : StepState) (idx : Int)
    (hnbr : nbrEmptyI s1.w idx = false) (hsc : idx ∈ s1.scanned) :
    SRel s1 { s1 with toRemove := s1.toRemove ++ [idx] } := by
  refine ⟨⟨rfl, rfl, rfl, rfl, rfl, rfl, rfl, rfl, rfl, fun _ h => h,
    fun _ h => h, fun _ _ h => Or.inl h, BoostRel.reflB _,
    fun h => h, fun h => h⟩, fun _ h => Or.inl h, fun q h => h,
    fun q h => Or.inl h, fun q h => h, fun q h => Or.inl h, ?_, ?_⟩
  · intro p h
    exact List.mem_append_left _ h
  · intro p hp
    rcases List.mem_append.mp hp with h1 | h2
    · exact Or.inl h1
    · simp at h2
      subst h2
      exact Or.inr ⟨hnbr, hsc⟩

theorem processEdgeCell_srel (rng : Nat → ℚ) (cb : ℚ) (s : StepState)
    (idx : Int) (hmem : idx ∈ s.w.activeEdges) :
    SRel s (processEdgeCell rng cb s idx) := by
  unfold processEdgeCell
  dsimp only
  split_ifs with hc0 hflag
  · -- cols = 0: age write, unconditional removal queueing
    refine ⟨⟨rfl, rfl, rfl, rfl, rfl, rfl, rfl, rfl, rfl, fun _ h => h,
      fun _ h => h, fun _ _ h => Or.inl h, BoostRel.reflB _,
      fun h => h, fun h => h⟩, fun _ h => Or.inl h, fun q h => h,
      fun q h => Or.inl h, ?_, ?_, ?_, ?_⟩
    · intro q h
      exact List.mem_append_left _ h
    · intro q hq
      rcases List.mem_append.mp hq with h1 | h2
      · exact Or.inl h1
      · simp at h2
        subst h2
        exact Or.inr hmem
    · intro p h
      exact List.mem_append_left _ h
    · intro p hp
      rcases List.mem_append.mp hp with h1 | h2
      · exact Or.inl h1
      · simp at h2
        subst h2
        right
        refine ⟨nbrEmptyI_cols_zero hc0 p, ?_⟩
        exact List.mem_append_right _ (by simp)
  · -- hasEmptyNeighbor true: age and record the visit
    have rf : SRel s (neighborOffsets.foldl
        (scanNbr rng cb (Int.tmod idx (s.w.cols : Int))
          (Int.fdiv idx (s.w.cols : Int))) (s, false)).1 :=
      (scanFold_prel rng cb _ _ neighborOffsets (s, false)).1
    exact rf.transS (ageScan_srel _ idx (rf.wrel.edges idx hmem))
  · -- hasEmptyNeighbor false: also queue for removal
    have rf : SRel s (neighborOffsets.foldl
        (scanNbr rng cb (Int.tmod idx (s.w.cols : Int))
          (Int.fdiv idx (s.w.cols : Int))) (s, false)).1 :=
      (scanFold_prel rng cb _ _ neighborOffsets (s, false)).1
    have hsc2 := scanFold_false rng cb (Int.tmod idx (s.w.cols : Int))
      (Int.fdiv idx (s.w.cols : Int)) neighborOffsets (s, false)
      (by simpa using hflag)
    have rage := ageScan_srel (neighborOffsets.foldl
        (scanNbr rng cb (Int.tmod idx (s.w.cols : Int))
          (Int.fdiv idx (s.w.cols : Int))) (s, false)).1 idx
      (rf.wrel.edges idx hmem)
    have rs1 := rf.transS rage
    refine rs1.transS (removeQueue_srel _ idx ?_ ?_)
    · refine nbrEmptyI_false_from_scan s.w.cols s.w.rows rf.wrel.cols
        rf.wrel.rows ?_
      intro d hd hin
      exact hsc2.2 d hd hin
    · exact List.mem_append_right _ (by simp)

theorem scanLoop_srel (rng : Nat → ℚ) (cb : ℚ) :
    ∀ (fuel i : Nat) (s : StepState), SRel s (scanLoop rng cb fuel i s) := by
  intro fuel
  induction fuel with
  | zero =>
    intro i s
    exact SRel.reflS s
  | succ n ih =>
    intro i s
    unfold scanLoop
    split
    · refine SRel.transS ?_ (ih (i + 1) _)
      exact processEdgeCell_srel rng cb s _ (List.get_mem _ _ _)
    · exact SRel.reflS s

theorem stepScan_srel (rng : Nat → ℚ) (w : World) :
    SRel ⟨w, 0, [], [], []⟩ (stepScan rng w) :=
  scanLoop_srel rng w.resourceBoost (stepFuel w) 0 ⟨w, 0, [], [], []⟩

/-! ## Unfolding lemmas for one whole step -/

theorem spreadCreep_noop (rng : Nat → ℚ) (w : World)
    (h : w.isSaturated = true) : spreadCreep rng w = w := by
  unfold spreadCreep
  rw [if_pos h]

theorem spreadCreep_unfold (rng : Nat → ℚ) (w : World)
    (h : w.isSaturated = false) :
    (spreadCreep rng w).creepGrid = (stepScan rng w).w.creepGrid ∧
    (spreadCreep rng w).creepAge = (stepScan rng w).w.creepAge ∧
    (spreadCreep rng w).cols = (stepScan rng w).w.cols ∧
    (spreadCreep rng w).rows = (stepScan rng w).w.rows ∧
    (spreadCreep rng w).totalVisibleCells =
      (stepScan rng w).w.totalVisibleCells ∧
    (spreadCreep rng w).resourceBoost = (stepScan rng w).w.resourceBoost ∧
    (spreadCreep rng w).mineralsGathered =
      (stepScan rng w).w.mineralsGathered ∧
    (spreadCreep rng w).vespeneGathered =
      (stepScan rng w).w.vespeneGathered ∧
    (spreadCreep rng w).creepCount = (stepScan rng w).w.creepCount ∧
    (spreadCreep rng w).activeEdges =
      (stepScan rng w).newEdges.foldl setAdd
        ((stepScan rng w).w.activeEdges.filter
          (fun e => !((stepScan rng w).toRemove.contains e))) := by
  unfold spreadCreep
  rw [if_neg (by simp [h])]
  dsimp only
  split_ifs <;>
    exact ⟨rfl, rfl, rfl, rfl, rfl, rfl, rfl, rfl, rfl, rfl⟩

theorem spreadCreep_sat_flag (rng : Nat → ℚ) (w : World)
    (h : ((spreadCreep rng w).totalVisibleCells : ℚ) * (98/100) ≤
      ((spreadCreep rng w).creepCount : ℚ)) :
    (spreadCreep rng w).isSaturated = true := by
  by_cases hsat : w.isSaturated = true
  · rw [spreadCreep_noop rng w hsat]
    exact hsat
  · unfold spreadCreep at h ⊢
    rw [if_neg hsat] at h ⊢
    dsimp only at h ⊢
    split_ifs at h ⊢ with hcond
    · rfl
    · exact absurd h hcond

/-- `nbrEmptyI` only reads the geometry and the occupancy grid. -/
theorem nbrEmptyI_congr {v v2 : World} (hc : v2.cols = v.cols)
    (hr : v2.rows = v.rows) (hg : v2.creepGrid = v.creepGrid) (p : Int) :
    nbrEmptyI v2 p = nbrEmptyI v p := by
  unfold nbrEmptyI
  rw [hc, hr, hg]

/-! ## The frontier invariant, as decidable predicates -/

/-- Every frontier member is an occupied cell. -/
def edgesOccupied (w : World) : Bool :=
  w.activeEdges.all (fun e => truthyAt w.creepGrid e)

/-- Every occupied cell with an unoccupied in-bounds 8-neighbor is a frontier
member. -/
def frontierClosed (w : World) : Bool :=
  (List.range (w.cols * w.rows)).all (fun i =>
    !(truthyAt w.creepGrid (i : Int) && nbrEmptyI w (i : Int)) ||
      decide ((i : Int) ∈ w.activeEdges))

theorem edgesOccupied_iff {w : World} :
    edgesOccupied w = true ↔
      ∀ e ∈ w.activeEdges, truthyAt w.creepGrid e = true := by
  unfold edgesOccupied
  rw [List.all_eq_true]

theorem frontierClosed_iff {w : World} (hwf : wfW w) :
    frontierClosed w = true ↔
      ∀ p : Int, truthyAt w.creepGrid p = true → nbrEmptyI w p = true →
        p ∈ w.activeEdges := by
  unfold frontierClosed
  rw [List.all_eq_true]
  constructor
  · intro h p ht hn
    have hb := truthyAt_bounds ht
    unfold wfW at hwf
    have hmem : p.toNat ∈ List.range (w.cols * w.rows) := by
      rw [List.mem_range]
      omega
    have h2 := h p.toNat hmem
    rw [show ((p.toNat : Int)) = p from by omega, ht, hn] at h2
    simpa using h2
  · intro h i hi
    by_cases ht : truthyAt w.creepGrid (i : Int) = true
    · by_cases hn : nbrEmptyI w (i : Int) = true
      · have := h (i : Int) ht hn
        simp [ht, hn, this]
      · rw [Bool.not_eq_true] at hn
        simp [hn]
    · rw [Bool.not_eq_true] at ht
      simp [ht]

/-! ## Claim theorems -/

/-- C1 (amended): on a well-formed world with `cols * rows > 0` whose
frontier members are all occupied and which contains every occupied cell
having an unoccupied in-bounds 8-neighbor, `spreadCreep` preserves both
properties: afterwards every member is still an occupied cell, and every
occupied cell with an unoccupied in-bounds 8-neighbor is still a member.
(The original claim's further requirement — that every member currently has
an unoccupied neighbor — fails on the code; see the counterexample.) -/
theorem claim1_frontier_step (rng : Nat → ℚ) (w : World)
    (hpos : 0 < w.cols * w.rows) (hwf : w.creepGrid.length = w.cols * w.rows)
    (hOcc : edgesOccupied w = true) (hE2 : frontierClosed w = true) :
    edgesOccupied (spreadCreep rng w) = true ∧
    frontierClosed (spreadCreep rng w) = true := by
  by_cases hsat : w.isSaturated = true
  · rw [spreadCreep_noop rng w hsat]
    exact ⟨hOcc, hE2⟩
  · have hsat2 : w.isSaturated = false := by simpa using hsat
    obtain ⟨hg, hage, hcols, hrows, htot, hboost, hmg, hvg, hcount, hedges⟩ :=
      spreadCreep_unfold rng w hsat2
    have R := stepScan_srel rng w
    have hwf0 : wfW (⟨w, 0, [], [], []⟩ : StepState).w := hwf
    have hOccI := edgesOccupied_iff.mp hOcc
    have hE2I := (frontierClosed_iff hwf).mp hE2
    have hsub : ∀ p : Int, p ∈ (stepScan rng w).w.activeEdges →
        nbrEmptyI (stepScan rng w).w p = true →
        p ∈ (spreadCreep rng w).activeEdges := by
      intro p hin hn
      rw [hedges]
      refine mem_foldl_setAdd_of_mem_init _ ?_
      rw [List.mem_filter]
      refine ⟨hin, ?_⟩
      have hnot : p ∉ (stepScan rng w).toRemove := by
        intro hmem
        rcases R.trNew p hmem with h1 | h2
        · simp at h1
        · rw [h2.1] at hn
          simp at hn
      simpa using hnot
    constructor
    · rw [edgesOccupied_iff]
      intro e he
      rw [hg]
      rw [hedges] at he
      rcases mem_of_mem_foldl_setAdd he with h1 | h2
      · have h3 := (List.mem_filter.mp h1).1
        rcases R.wrel.edgesNew hwf0 e h3 with h4 | h5
        · exact R.wrel.mono e (hOccI e h4)
        · exact h5.1
      · rcases R.neNew e h2 with h3 | h4
        · simp at h3
        · exact h4.1
    · have hwf2 : wfW (spreadCreep rng w) := by
        unfold wfW
        rw [hg, hcols, hrows, R.wrel.glen, R.wrel.cols, R.wrel.rows]
        exact hwf
      rw [frontierClosed_iff hwf2]
      intro p ht hn
      rw [hg] at ht
      rw [nbrEmptyI_congr hcols hrows hg p] at hn
      rcases R.occReg p ht with h1 | h2 | h3
      · have hnw : nbrEmptyI w p = true := nbrEmptyI_mono R.wrel hn
        have hmemw := hE2I p h1 hnw
        exact hsub p (R.wrel.edges p hmemw) hn
      · exact hsub p h2 hn
      · rw [hedges]
        exact mem_foldl_setAdd_of_mem _ h3

/-! ## Concrete demonstration worlds -/

/-- The all-zeros oracle. -/
def rng0 : Nat → ℚ := fun _ => 0

/-- A well-formed 2x1 world: the left cell is occupied and on the frontier,
the right cell is empty. -/
def cexW : World :=
  { cols := 2, rows := 1,
    creepGrid := [1, 0], creepAge := [50, 0],
    terrainHeight := [0, 0], terrainType := [0, 0],
    minerals := [], vespene := [], buildings := [⟨0, 0, 0, 0⟩],
    startCorner := ⟨0, 0, 1, 1⟩, activeEdges := [0],
    noiseTexture1 := [0, 0], totalVisibleCells := 2,
    isSaturated := false, creepCount := 1, resourceBoost := 1,
    mineralsGathered := 0, vespeneGathered := 0 }

/-- A well-formed 6x1 world: cell 0 occupied and on the frontier, an
undepleted mineral at (2,0), and enough gathered resources to pass the
hatchery gate. -/
def demoWorld : World :=
  { cols := 6, rows := 1,
    creepGrid := [1, 0, 0, 0, 0, 0],
    creepAge := [50, 0, 0, 0, 0, 0],
    terrainHeight := [0, 0, 0, 0, 0, 0],
    terrainType := [0, 0, 0, 0, 0, 0],
    minerals := [⟨2, 0, 3, false⟩],
    vespene := [], buildings := [⟨0, 0, 0, 0⟩],
    startCorner := ⟨0, 0, 1, 1⟩, activeEdges := [0],
    noiseTexture1 := [0, 0, 0, 0, 0, 0],
    totalVisibleCells := 6,
    isSaturated := false, creepCount := 1, resourceBoost := 1,
    mineralsGathered := 2, vespeneGathered := 1 }

/-- Oracle driving `demoWorld`: the spawner coin and candidate draws succeed
and every growth roll fails. -/
def rngC2 : Nat → ℚ := fun k => if k < 2 then 0 else 1/2

/-- Oracle driving `demoWorld`: the spawner coin, candidate and first growth
draws succeed, later growth rolls fail. -/
def rngC10 : Nat → ℚ := fun k => if k < 3 then 0 else 1/2

/-- C2 (amended): the frontier scan of a step visits only cells that were
frontier members when the step began or cells newly occupied (and appended to
the live frontier) by structure spawning during the step; growth-roll
occupations go to the separate `newEdges` buffer and frontier removals are
applied only after the scan completes, so every removed cell was itself
visited. (The original claim's assertion that mid-step insertions are never
visited fails for spawner insertions; see the counterexample.) -/
theorem claim2_scan_visits (rng : Nat → ℚ) (w : World)
    (hwf : w.creepGrid.length = w.cols * w.rows) :
    (∀ q ∈ spreadCreepScanned rng w, q ∈ w.activeEdges ∨
      (truthyAt (spreadCreep rng w).creepGrid q = true ∧
        truthyAt w.creepGrid q = false)) ∧
    (w.isSaturated = false → ∀ p ∈ (stepScan rng w).toRemove,
      p ∈ spreadCreepScanned rng w) := by
  constructor
  · intro q hq
    by_cases hsat : w.isSaturated = true
    · unfold spreadCreepScanned at hq
      rw [if_pos hsat] at hq
      simp at hq
    · have hsat2 : w.isSaturated = false := by simpa using hsat
      unfold spreadCreepScanned at hq
      rw [if_neg hsat] at hq
      have R := stepScan_srel rng w
      rcases R.scNew q hq with h1 | h2
      · simp at h1
      · rcases R.wrel.edgesNew hwf q h2 with h3 | h4
        · exact Or.inl h3
        · right
          obtain ⟨hg, _⟩ := spreadCreep_unfold rng w hsat2
          rw [hg]
          exact ⟨h4.1, h4.2⟩
  · intro hsat2 p hp
    have R := stepScan_srel rng w
    rcases R.trNew p hp with h1 | h2
    · simp at h1
    · unfold spreadCreepScanned
      rw [if_neg (by simp [hsat2])]
      exact h2.2

/-- C4: once the counter-based occupancy reaches 98% of the cell total at
the end of a step the engine flags saturation, and a step on a saturated
world is a complete no-op — the whole state, hence occupancy, age, frontier,
deposits, gathered counters, the boost and the structure list, is returned
unchanged. -/
theorem claim4_saturation (rng : Nat → ℚ) (w : World) :
    (w.isSaturated = true → spreadCreep rng w = w) ∧
    (((spreadCreep rng w).totalVisibleCells : ℚ) * (98/100) ≤
        ((spreadCreep rng w).creepCount : ℚ) →
      (spreadCreep rng w).isSaturated = true) :=
  ⟨fun h => spreadCreep_noop rng w h, fun h => spreadCreep_sat_flag rng w h⟩

/-- C5: on a zero-sized grid, generation yields a world with no occupied
cell, and the first step leaves it unoccupied and sets the saturation flag;
both functions are total, so neither "crashes". (Between generation and the
first step the flag is still false, since generation always resets it.) -/
theorem claim5_zero_grid (rng rng2 : Nat → ℚ) (cols rows : Nat)
    (th : List ℚ) (tt : List Nat) (n1 : List ℚ) (hz : cols * rows = 0) :
    countOnes (initGridWithTerrain rng cols rows th tt n1).creepGrid = 0 ∧
    (spreadCreep rng2 (initGridWithTerrain rng cols rows th tt n1)).isSaturated
      = true ∧
    countOnes
      (spreadCreep rng2 (initGridWithTerrain rng cols rows th tt n1)).creepGrid
      = 0 := by
  have hg0 : (initGridWithTerrain rng cols rows th tt n1).creepGrid = [] := by
    unfold initGridWithTerrain
    dsimp only
    rw [hz]
    unfold tset
    split <;> simp
  have hsat0 : (initGridWithTerrain rng cols rows th tt n1).isSaturated
      = false := rfl
  have htot0 : (initGridWithTerrain rng cols rows th tt n1).totalVisibleCells
      = 0 := hz
  have R := stepScan_srel rng2 (initGridWithTerrain rng cols rows th tt n1)
  obtain ⟨hgs, _, _, _, htot, _, _, _, _, _⟩ :=
    spreadCreep_unfold rng2 (initGridWithTerrain rng cols rows th tt n1) hsat0
  have hgrid2 :
      (spreadCreep rng2 (initGridWithTerrain rng cols rows th tt n1)).creepGrid
        = [] := by
    refine List.length_eq_zero.mp ?_
    rw [hgs, R.wrel.glen, hg0]
    rfl
  refine ⟨?_, ?_, ?_⟩
  · rw [hg0]
    rfl
  · refine spreadCreep_sat_flag rng2 _ ?_
    rw [htot, R.wrel.total, htot0]
    simp
  · rw [hgrid2]
    rfl

/-- C6: resource discovery acts at most once per deposit. `firstHit` only
ever selects an undepleted in-range deposit (and finds nothing among
depleted ones, so repeated checks against a depleted deposit never
increment counters, bump the boost, place a marker or trigger the spawner);
a mineral hit flips exactly that mineral's flag and leaves every vespene
untouched (minerals are checked first, first match wins, at most one deposit
per call); a vespene hit is symmetric; and with no hit at all the call
returns the state unchanged. -/
theorem claim6_discovery_once :
    (∀ (ds : List Deposit) (x y r : Int) (j : Nat), firstHit ds x y r = some j →
      ∃ d, ds[j]? = some d ∧ d.depleted = false ∧
        (x - d.x) * (x - d.x) + (y - d.y) * (y - d.y) < r) ∧
    (∀ (ds : List Deposit) (x y r : Int),
      (∀ d ∈ ds, d.depleted = true) → firstHit ds x y r = none) ∧
    (∀ (rng : Nat → ℚ) (w : World) (k : Nat) (x y : Int) (j : Nat),
      firstHit w.minerals x y 25 = some j →
      (checkResource rng w k x y).1.minerals =
        w.minerals.set j { w.minerals.getD j noDeposit with depleted := true } ∧
      (checkResource rng w k x y).1.vespene = w.vespene ∧
      (checkResource rng w k x y).2.2 = some ⟨ResKind.mineral, 2⟩) ∧
    (∀ (rng : Nat → ℚ) (w : World) (k : Nat) (x y : Int) (j : Nat),
      firstHit w.minerals x y 25 = none →
      firstHit w.vespene x y 36 = some j →
      (checkResource rng w k x y).1.vespene =
        w.vespene.set j { w.vespene.getD j noDeposit with depleted := true } ∧
      (checkResource rng w k x y).1.minerals = w.minerals ∧
      (checkResource rng w k x y).2.2 = some ⟨ResKind.vespene, 3⟩) ∧
    (∀ (rng : Nat → ℚ) (w : World) (k : Nat) (x y : Int),
      firstHit w.minerals x y 25 = none → firstHit w.vespene x y 36 = none →
      checkResource rng w k x y = (w, k, none)) := by
  refine ⟨?_, ?_, ?_, ?_, ?_⟩
  · intro ds x y r j h
    exact firstHit_spec ds x y r j h
  · intro ds x y r h
    exact firstHit_none ds x y r h
  · intro rng w k x y j h
    obtain ⟨h1, h2, h3, h4⟩ := (checkResource_spec rng w k x y).1 j h
    exact ⟨h1, h2, h4⟩
  · intro rng w k x y j hm hv
    obtain ⟨h1, h2, h3, h4⟩ := (checkResource_spec rng w k x y).2.1 hm j hv
    exact ⟨h1, h2, h4⟩
  · intro rng w k x y hm hv
    exact (checkResource_spec rng w k x y).2.2 hm hv

/-- C7: the boost starts at 1.0 at world creation; a step never decreases it
and keeps it within [1.0, 3.0]; a mineral discovery sets it to
`min 3 (boost + 0.5)`, a vespene discovery to `min 3 (boost + 1)`, and a
check that discovers nothing leaves it unchanged. -/
theorem claim7_resource_boost :
    (∀ (rng : Nat → ℚ) (cols rows : Nat) (th : List ℚ) (tt : List Nat)
      (n1 : List ℚ),
      (initGridWithTerrain rng cols rows th tt n1).resourceBoost = 1) ∧
    (∀ (rng : Nat → ℚ) (w : World),
      1 ≤ w.resourceBoost → w.resourceBoost ≤ 3 →
      w.resourceBoost ≤ (spreadCreep rng w).resourceBoost ∧
      1 ≤ (spreadCreep rng w).resourceBoost ∧
      (spreadCreep rng w).resourceBoost ≤ 3) ∧
    (∀ (rng : Nat → ℚ) (w : World) (k : Nat) (x y : Int) (j : Nat),
      firstHit w.minerals x y 25 = some j →
      (checkResource rng w k x y).1.resourceBoost =
        min 3 (w.resourceBoost + 1/2)) ∧
    (∀ (rng : Nat → ℚ) (w : World) (k : Nat) (x y : Int) (j : Nat),
      firstHit w.minerals x y 25 = none → firstHit w.vespene x y 36 = some j →
      (checkResource rng w k x y).1.resourceBoost =
        min 3 (w.resourceBoost + 1)) ∧
    (∀ (rng : Nat → ℚ) (w : World) (k : Nat) (x y : Int),
      firstHit w.minerals x y 25 = none → firstHit w.vespene x y 36 = none →
      (checkResource rng w k x y).1.resourceBoost = w.resourceBoost) := by
  refine ⟨?_, ?_, ?_, ?_, ?_⟩
  · intro rng cols rows th tt n1
    rfl
  · intro rng w h1 h3
    by_cases hsat : w.isSaturated = true
    · rw [spreadCreep_noop rng w hsat]
      exact ⟨le_refl _, h1, h3⟩
    · have hsat2 : w.isSaturated = false := by simpa using hsat
      obtain ⟨_, _, _, _, _, hboost, _, _, _, _⟩ :=
        spreadCreep_unfold rng w hsat2
      have R := stepScan_srel rng w
      have B := R.wrel.boost
      rw [hboost]
      refine ⟨B.mono3 h3, ?_, ?_⟩
      · have := B.lo
        rwa [min_eq_left h1] at this
      · have := B.hi
        rwa [max_eq_left h3] at this
  · intro rng w k x y j h
    exact ((checkResource_spec rng w k x y).1 j h).2.2.1
  · intro rng w k x y j hm hv
    exact ((checkResource_spec rng w k x y).2.1 hm j hv).2.2.1
  · intro rng w k x y hm hv
    rw [(checkResource_spec rng w k x y).2.2 hm hv]

/-- C8: the gathered counters never go negative across a step, and the
spawner spends exactly its fixed costs exactly when the resource gate
passed, the 0.55 coin flip passed and an occupied non-cliff/non-water
candidate existed within radius 4 — in every other case it changes
nothing. -/
theorem claim8_counters :
    (∀ (rng : Nat → ℚ) (w : World),
      0 ≤ w.mineralsGathered → 0 ≤ w.vespeneGathered →
      0 ≤ (spreadCreep rng w).mineralsGathered ∧
      0 ≤ (spreadCreep rng w).vespeneGathered) ∧
    (∀ (rng : Nat → ℚ) (w : World) (k : Nat) (tx ty : Int),
      (w.mineralsGathered < HATCHERY_MINERAL_COST ∨
          w.vespeneGathered < HATCHERY_VESPENE_COST →
        maybeSpawnHatcheryNear rng w k tx ty = (w, k)) ∧
      (¬(w.mineralsGathered < HATCHERY_MINERAL_COST ∨
          w.vespeneGathered < HATCHERY_VESPENE_COST) →
        HATCHERY_SPAWN_CHANCE < rng k →
        maybeSpawnHatcheryNear rng w k tx ty = (w, k + 1)) ∧
      (¬(w.mineralsGathered < HATCHERY_MINERAL_COST ∨
          w.vespeneGathered < HATCHERY_VESPENE_COST) →
        ¬HATCHERY_SPAWN_CHANCE < rng k →
        hatcheryCandidates w tx ty = [] →
        maybeSpawnHatcheryNear rng w k tx ty = (w, k + 1)) ∧
      (¬(w.mineralsGathered < HATCHERY_MINERAL_COST ∨
          w.vespeneGathered < HATCHERY_VESPENE_COST) →
        ¬HATCHERY_SPAWN_CHANCE < rng k →
        hatcheryCandidates w tx ty ≠ [] →
        (maybeSpawnHatcheryNear rng w k tx ty).1.mineralsGathered =
          w.mineralsGathered - HATCHERY_MINERAL_COST ∧
        (maybeSpawnHatcheryNear rng w k tx ty).1.vespeneGathered =
          w.vespeneGathered - HATCHERY_VESPENE_COST)) := by
  constructor
  · intro rng w hm hv
    by_cases hsat : w.isSaturated = true
    · rw [spreadCreep_noop rng w hsat]
      exact ⟨hm, hv⟩
    · have hsat2 : w.isSaturated = false := by simpa using hsat
      obtain ⟨_, _, _, _, _, _, hmg, hvg, _, _⟩ :=
        spreadCreep_unfold rng w hsat2
      have R := stepScan_srel rng w
      rw [hmg, hvg]
      exact ⟨R.wrel.mg hm, R.wrel.vg hv⟩
  · intro rng w k tx ty
    exact maybeSpawn_spend rng w k tx ty

/-! ## The claim-side growth-threshold formula (C3)

These definitions follow the wording of the claim (not the source); the C3
theorem relates them to the source-side `spreadChanceOf`. -/

/-- Claim-side terrain table: LowGround 1.0, MidGround 0.9, HighPlateau
0.75, CliffWall 0.2, Water 0.15, by the numeric type codes 0-4. -/
def claimTerrainTypeMod : Nat → ℚ
  | 0 => 1
  | 1 => 9/10
  | 2 => 3/4
  | 3 => 1/5
  | 4 => 3/20
  | _ => 0

/-- Claim-side direction modifier: 4.0 away from the start corner on both
axes, 2.5 on exactly one, 1.0 otherwise. -/
def claimDirectionMod (dx dy dirX dirY : Int) : ℚ :=
  if dx = dirX ∧ dy = dirY then 4
  else if dx = dirX ∨ dy = dirY then 5/2
  else 1

/-- Claim-side resource-discovery modifier: 3.0 for a vespene discovery,
2.0 for a mineral discovery, 1.0 otherwise. -/
def claimResourceMod : Option ResKind → ℚ
  | some ResKind.vespene => 3
  | some ResKind.mineral => 2
  | none => 1

/-- Claim-side noise modifier: 1.5 when the fine-detail noise exceeds 0.75,
else 1.0. -/
def claimNoiseMod (nv : ℚ) : ℚ := if 3/4 < nv then 3/2 else 1

/-- Claim-side threshold: `0.002 * resourceBoost * (1 - height * 0.5) *
terrainTypeMod * directionMod * resourceDiscoveryMod * noiseMod`. -/
def claimThreshold (boost h : ℚ) (t : Nat) (dx dy dirX dirY : Int)
    (disc : Option ResKind) (nv : ℚ) : ℚ :=
  (2/1000) * boost * (1 - h * (1/2)) * claimTerrainTypeMod t *
    claimDirectionMod dx dy dirX dirY * claimResourceMod disc *
    claimNoiseMod nv

/-- C3: the probability threshold the growth roll compares against
(`spreadChanceOf`, applied by `processNeighbor` to every empty in-bounds
neighbor) equals the claimed product formula, with the boost factor being
the step-start snapshot `currentBoost`; and every discovery returned by
`checkResource` carries exactly the claimed resource modifier (mineral 2.0,
vespene 3.0). -/
theorem claim3_growth_threshold :
    (∀ (w : World) (cb : ℚ) (nidx dx dy : Int) (res : Option Discovery)
      (t : Nat),
      tget w.terrainType nidx = some t → t ≤ 4 →
      (∀ d, res = some d → d.boost = claimResourceMod (some d.kind)) →
      spreadChanceOf w cb nidx dx dy res =
        claimThreshold cb (qAt w.terrainHeight nidx) t dx dy
          w.startCorner.dirX w.startCorner.dirY (res.map Discovery.kind)
          (qAt w.noiseTexture1 nidx)) ∧
    (∀ (rng : Nat → ℚ) (w : World) (k : Nat) (x y : Int) (d : Discovery),
      (checkResource rng w k x y).2.2 = some d →
      d.boost = claimResourceMod (some d.kind)) := by
  constructor
  · intro w cb nidx dx dy res t ht ht4 hres
    have htm : terrainSpreadMods.getD t 0 = claimTerrainTypeMod t := by
      interval_cases t <;> rfl
    have hdm : (if (dx == w.startCorner.dirX && dy == w.startCorner.dirY)
          = true then (4 : ℚ)
        else if (dx == w.startCorner.dirX || dy == w.startCorner.dirY)
          = true then 5/2 else 1) =
        claimDirectionMod dx dy w.startCorner.dirX w.startCorner.dirY := by
      unfold claimDirectionMod
      by_cases h1 : dx = w.startCorner.dirX <;>
        by_cases h2 : dy = w.startCorner.dirY <;>
        simp [h1, h2]
    cases res with
    | none =>
      unfold spreadChanceOf claimThreshold
      dsimp only
      rw [ht]
      dsimp only
      rw [htm, hdm]
      rfl
    | some d =>
      have hb := hres d rfl
      unfold spreadChanceOf claimThreshold
      dsimp only
      rw [ht]
      dsimp only
      rw [htm, hdm, hb]
      rfl
  · intro rng w k x y d hd
    cases hm : firstHit w.minerals x y 25 with
    | some j =>
      have := ((checkResource_spec rng w k x y).1 j hm).2.2.2
      rw [this] at hd
      cases hd
      rfl
    | none =>
      cases hv : firstHit w.vespene x y 36 with
      | some j =>
        have := ((checkResource_spec rng w k x y).2.1 hm j hv).2.2.2
        rw [this] at hd
        cases hd
        rfl
      | none =>
        have := (checkResource_spec rng w k x y).2.2 hm hv
        rw [this] at hd
        cases hd

/-! ## Terrain classification characterization (C9) -/

theorem list_getD_eq (l : List Nat) (i : Nat) (d : Nat) :
    l.getD i d = (l[i]?).getD d := by
  simp [List.getD]

theorem classifyTypes_get (size : Nat) (water : List Nat) (th : List ℚ)
    (i : Nat) (hi : i < size) :
    (classifyTypes size water th)[i]? = some (
      if water.getD i 0 ≠ 0 then 4
      else if th.getD i 0 < 8/25 then 0
      else if th.getD i 0 < 3/5 then 1 else 2) := by
  unfold classifyTypes
  rw [List.getElem?_map, List.getElem?_range hi]
  rfl

theorem cliffStep_get (cols rows : Nat) (th : List ℚ) (acc : List Nat)
    (i j : Nat) :
    (cliffStep cols rows th acc i)[j]? =
      if i = j then
        (acc[j]?).map (fun v =>
          if v = 4 then v
          else if maxDiff4 cols rows th (j % cols) (j / cols) > 2/25 then 3
          else v)
      else acc[j]? := by
  unfold cliffStep
  by_cases hij : i = j
  · subst hij
    rw [if_pos rfl]
    cases hv : acc[i]? with
    | none =>
      have hlen : acc.length ≤ i := by
        by_contra hlt
        push_neg at hlt
        rw [List.getElem?_eq_getElem hlt] at hv
        cases hv
      have hgd : acc.getD i 0 = 0 := by
        rw [list_getD_eq, hv]
        rfl
      rw [hgd, if_neg (by omega)]
      split_ifs with hd
      · rw [List.getElem?_set, if_pos rfl, if_neg (by omega)]
        rfl
      · rw [hv]
        rfl
    | some v =>
      have hlt : i < acc.length := (List.getElem?_eq_some.mp hv).1
      have hgd : acc.getD i 0 = v := by
        rw [list_getD_eq, hv]
        rfl
      rw [hgd]
      by_cases h4 : v = 4
      · rw [if_pos h4, hv]
        simp [h4]
      · rw [if_neg h4]
        by_cases hd : maxDiff4 cols rows th (i % cols) (i / cols) > 2/25
        · rw [if_pos hd, List.getElem?_set, if_pos rfl, if_pos hlt]
          simp [h4, hd]
        · rw [if_neg hd, hv]
          simp [h4, hd]
  · rw [if_neg hij]
    split_ifs with h1 h2
    · rfl
    · exact List.getElem?_set_ne hij
    · rfl

theorem detect_fold_get (cols rows : Nat) (th : List ℚ) (tt : List Nat) :
    ∀ (m j : Nat),
      ((List.range m).foldl (cliffStep cols rows th) tt)[j]? =
      if j < m then
        (tt[j]?).map (fun v =>
          if v = 4 then v
          else if maxDiff4 cols rows th (j % cols) (j / cols) > 2/25 then 3
          else v)
      else tt[j]? := by
  intro m
  induction m with
  | zero =>
    intro j
    simp
  | succ n ih =>
    intro j
    rw [List.range_succ, List.foldl_append, List.foldl_cons, List.foldl_nil,
      cliffStep_get]
    by_cases hjn : n = j
    · subst hjn
      rw [if_pos rfl, ih n, if_neg (by omega), if_pos (by omega)]
    · rw [if_neg hjn, ih j]
      by_cases hlt : j < n
      · rw [if_pos hlt, if_pos (by omega)]
      · rw [if_neg hlt, if_neg (by omega)]

/-- C9: after the classification pass and the cliff pass, each in-bounds
cell's type is exactly: 4 (Water) on the expanded water mask, otherwise 3
(CliffWall) when the maximum absolute height difference to the 4-directional
in-bounds neighbors exceeds 0.08, otherwise the height band 0/1/2
(LowGround below 0.32, MidGround below 0.6, else HighPlateau); in
particular the type is one of the five codes and a Water cell is never
reclassified as CliffWall. -/
theorem claim9_terrain_types (cols rows : Nat) (water : List Nat)
    (th : List ℚ) (x y : Nat) (hx : x < cols) (hy : y < rows) :
    (detectCliffs cols rows th
        (classifyTypes (cols * rows) water th)).getD (y * cols + x) 0 =
      (if water.getD (y * cols + x) 0 ≠ 0 then 4
       else if maxDiff4 cols rows th x y > 2/25 then 3
       else if th.getD (y * cols + x) 0 < 8/25 then 0
       else if th.getD (y * cols + x) 0 < 3/5 then 1 else 2) ∧
    (detectCliffs cols rows th
        (classifyTypes (cols * rows) water th)).getD (y * cols + x) 0 ≤ 4 ∧
    (water.getD (y * cols + x) 0 ≠ 0 →
      (detectCliffs cols rows th
        (classifyTypes (cols * rows) water th)).getD (y * cols + x) 0 = 4) := by
  have hcols0 : 0 < cols := lt_of_le_of_lt (Nat.zero_le x) hx
  have hi : y * cols + x < cols * rows := by
    have h1 : y * cols + x < (y + 1) * cols := by
      have : (y + 1) * cols = y * cols + cols := by ring
      omega
    have h2 : (y + 1) * cols ≤ rows * cols :=
      Nat.mul_le_mul_right cols hy
    have h3 : rows * cols = cols * rows := Nat.mul_comm rows cols
    omega
  have hmod : (y * cols + x) % cols = x := by
    rw [Nat.add_comm, Nat.add_mul_mod_self_right]
    exact Nat.mod_eq_of_lt hx
  have hdiv : (y * cols + x) / cols = y := by
    rw [Nat.add_comm, Nat.add_mul_div_right _ _ hcols0,
      Nat.div_eq_of_lt hx, Nat.zero_add]
  have hchar : (detectCliffs cols rows th
      (classifyTypes (cols * rows) water th)).getD (y * cols + x) 0 =
      (if water.getD (y * cols + x) 0 ≠ 0 then 4
       else if maxDiff4 cols rows th x y > 2/25 then 3
       else if th.getD (y * cols + x) 0 < 8/25 then 0
       else if th.getD (y * cols + x) 0 < 3/5 then 1 else 2) := by
    unfold detectCliffs
    rw [list_getD_eq, detect_fold_get, if_pos hi,
      classifyTypes_get (cols * rows) water th _ hi, hmod, hdiv]
    dsimp only [Option.map, Option.getD]
    by_cases hw : water.getD (y * cols + x) 0 ≠ 0
    · simp only [if_pos hw]
      simp
    · simp only [if_neg hw]
      have hB : (if th.getD (y * cols + x) 0 < 8/25 then (0 : Nat)
          else if th.getD (y * cols + x) 0 < 3/5 then 1 else 2) ≠ 4 := by
        split_ifs <;> omega
      rw [if_neg hB]
  refine ⟨hchar, ?_, ?_⟩
  · rw [hchar]
    split_ifs <;> omega
  · intro hw
    rw [hchar, if_pos hw]

section
attribute [local semireducible] Rat.add Rat.mul Rat.inv Rat.sub

/-- C1 counterexample: after one `spreadCreep` on the 2x1 world (the growth
roll occupies the right cell during the scan), cell 0 is still an active-edge
member although none of its in-bounds 8-neighbors is unoccupied — the
claimed forward direction of the frontier invariant is false. -/
theorem claim1_counterexample :
    (0 : Int) ∈ (spreadCreep rng0 cexW).activeEdges ∧
    truthyAt (spreadCreep rng0 cexW).creepGrid 0 = true ∧
    nbrEmptyI (spreadCreep rng0 cexW) 0 = false ∧
    0 < cexW.cols * cexW.rows := by decide

/-- Witness for the amended C1 theorem at the 2x1 world. -/
theorem claim1_witness :
    edgesOccupied (spreadCreep rng0 cexW) = true ∧
    frontierClosed (spreadCreep rng0 cexW) = true :=
  claim1_frontier_step rng0 cexW (by decide) (by decide) (by decide)
    (by decide)

/-- C2 counterexample: on the 6x1 world, scanning cell 0 discovers the
mineral, which spawns a hatchery that occupies cell 1 and inserts it into the
live `activeEdges` set mid-step; the `for...of` scan then visits cell 1 in
the same step although it was not a frontier member when the step began. -/
theorem claim2_counterexample :
    (1 : Int) ∈ spreadCreepScanned rngC2 demoWorld ∧
    (1 : Int) ∉ demoWorld.activeEdges := by decide

/-- Witness for the amended C2 theorem at the 6x1 world, instantiated at
the scanned cell 0. -/
theorem claim2_witness :
    (0 : Int) ∈ spreadCreepScanned rngC2 demoWorld ∧
    ((0 : Int) ∈ demoWorld.activeEdges ∨
      (truthyAt (spreadCreep rngC2 demoWorld).creepGrid 0 = true ∧
        truthyAt demoWorld.creepGrid 0 = false)) :=
  ⟨by decide, (claim2_scan_visits rngC2 demoWorld (by decide)).1 0 (by decide)⟩

/-- C10 (code bug): on the 6x1 world, scanning cell 0's neighbor cell 1
first lets the discovery-triggered hatchery occupy cell 1 (one counted
occupation), and then the still-pending growth roll for the same neighbor
fires on the now-occupied cell and increments `creepCount` again without
occupying anything; after the step the counter reads 3 while only 2 cells
are occupied, so the saturation test no longer reflects actual occupancy. -/
theorem claim10_creep_count_bug :
    demoWorld.creepCount = 1 ∧ countOnes demoWorld.creepGrid = 1 ∧
    0 < demoWorld.cols * demoWorld.rows ∧
    (spreadCreep rngC10 demoWorld).creepCount = 3 ∧
    countOnes (spreadCreep rngC10 demoWorld).creepGrid = 2 := by decide

/-- A saturated world: `cexW` with the saturation flag set. -/
def satDemo : World := { cexW with isSaturated := true }

/-- Witness for C4 at a concrete saturated world. -/
theorem claim4_witness :
    satDemo.isSaturated = true ∧ spreadCreep rng0 satDemo = satDemo :=
  ⟨by decide, (claim4_saturation rng0 satDemo).1 (by decide)⟩

/-- Witness for C5 at the concrete 0x0 grid. -/
theorem claim5_witness :
    countOnes (initGridWithTerrain rng0 0 0 [] [] []).creepGrid = 0 ∧
    (spreadCreep rng0 (initGridWithTerrain rng0 0 0 [] [] [])).isSaturated
      = true ∧
    countOnes
      (spreadCreep rng0 (initGridWithTerrain rng0 0 0 [] [] [])).creepGrid
      = 0 :=
  claim5_zero_grid rng0 rng0 0 0 [] [] [] (by decide)

/-- Witness for C6: against a list holding only a depleted deposit, the
first-hit scan finds nothing. -/
theorem claim6_witness :
    firstHit [⟨(2 : Int), 0, 3, true⟩] 1 0 25 = none :=
  claim6_discovery_once.2.1 [⟨(2 : Int), 0, 3, true⟩] 1 0 25 (by decide)

/-- Witness for C7 at the 2x1 world (boost 1). -/
theorem claim7_witness :
    (1 : ℚ) ≤ cexW.resourceBoost ∧ cexW.resourceBoost ≤ 3 ∧
    (cexW.resourceBoost ≤ (spreadCreep rng0 cexW).resourceBoost ∧
      1 ≤ (spreadCreep rng0 cexW).resourceBoost ∧
      (spreadCreep rng0 cexW).resourceBoost ≤ 3) :=
  ⟨by decide, by decide,
    claim7_resource_boost.2.1 rng0 cexW (by decide) (by decide)⟩

/-- Witness for C8 at the 2x1 world (counters 0). -/
theorem claim8_witness :
    (0 : Int) ≤ cexW.mineralsGathered ∧ (0 : Int) ≤ cexW.vespeneGathered ∧
    (0 ≤ (spreadCreep rng0 cexW).mineralsGathered ∧
      0 ≤ (spreadCreep rng0 cexW).vespeneGathered) :=
  ⟨by decide, by decide, claim8_counters.1 rng0 cexW (by decide) (by decide)⟩

/-- Witness for C3 at the 2x1 world's right-hand neighbor with no
discovery. -/
theorem claim3_witness :
    tget cexW.terrainType 1 = some 0 ∧
    spreadChanceOf cexW 1 1 1 0 none =
      claimThreshold 1 (qAt cexW.terrainHeight 1) 0 1 0
        cexW.startCorner.dirX cexW.startCorner.dirY none
        (qAt cexW.noiseTexture1 1) :=
  ⟨by decide, claim3_growth_threshold.1 cexW 1 1 1 0 none 0 (by decide)
    (by decide) (fun d h => by cases h)⟩

/-- Witness for C9 on a concrete 1x1 water cell. -/
theorem claim9_witness :
    (detectCliffs 1 1 [0] (classifyTypes (1 * 1) [1] [0])).getD (0 * 1 + 0) 0
      = 4 :=
  (claim9_terrain_types 1 1 [1] [0] 0 0 (by decide) (by decide)).2.2
    (by decide)

end

end Zerg
